import Mathlib

/-!
Verification of the IT Service Desk agent core: a shallow embedding of the
security registry (`security/registry.py`, `security/policy.py`), the intent
router (`orchestration/router.py`) and the workflow coordinator
(`agents/orchestration/workflow_coordinator.py`), together with theorems
settling the behavioural claims about those components.

Python dicts are embedded as association lists preserving insertion order;
exceptions become `Except`; the coordinator mutation of task objects becomes
explicit state passing over a `List WorkflowTask` indexed by position (a task
object is identified with its position in the workflow task list).
-/

namespace ITServiceDesk

/-! ## Security policy model (security/policy.py) -/

/-- The `RiskLevel` string literal type: low, medium, high, critical. -/
inductive RiskLevel
  | low
  | medium
  | high
  | critical
deriving DecidableEq, Repr

/-- String value of a risk level, as the Python literal. -/
def RiskLevel.toStr : RiskLevel → String
  | .low => "low"
  | .medium => "medium"
  | .high => "high"
  | .critical => "critical"

/-- User identity with roles (`UserPrincipal`). -/
structure UserPrincipal where
  id : String
  roles : List String
deriving DecidableEq, Repr

/-- Policy for a specific operation (`OperationPolicy`). -/
structure OperationPolicy where
  name : String
  required_roles : List String
  min_risk_level : RiskLevel
  requires_approval : Bool := false
deriving DecidableEq, Repr

/-- Raised when an authorization check fails (`AuthorizationError`). -/
structure AuthorizationError where
  message : String
  code : String := "UNAUTHORIZED"
deriving DecidableEq, Repr

/-- Python repr of a list of strings, used in error messages
(e.g. `Required: [\x27it_admin\x27]`). -/
def pyListRepr (xs : List String) : String :=
  "[" ++ String.intercalate ", " (xs.map (fun s => "\x27" ++ s ++ "\x27")) ++ "]"

/-! ## Policy registry (security/registry.py) -/

/-- The static `_POLICIES` registry, entry for entry from the source. -/
def _POLICIES : List (String × OperationPolicy) :=
  [ ("ad.user.lookup",
      { name := "ad.user.lookup"
        required_roles := ["it_helpdesk", "it_admin", "viewer"]
        min_risk_level := .low
        requires_approval := false }),
    ("ad.password.reset",
      { name := "ad.password.reset"
        required_roles := ["it_helpdesk", "it_admin"]
        min_risk_level := .medium
        requires_approval := true }),
    ("ad.account.unlock",
      { name := "ad.account.unlock"
        required_roles := ["it_helpdesk", "it_admin"]
        min_risk_level := .low
        requires_approval := false }),
    ("ad.laps.retrieve",
      { name := "ad.laps.retrieve"
        required_roles := ["it_admin"]
        min_risk_level := .high
        requires_approval := true }),
    ("ad.bitlocker.retrieve",
      { name := "ad.bitlocker.retrieve"
        required_roles := ["it_helpdesk", "it_admin"]
        min_risk_level := .medium
        requires_approval := true }),
    ("graph.user.get",
      { name := "graph.user.get"
        required_roles := ["it_helpdesk", "it_admin", "viewer"]
        min_risk_level := .low
        requires_approval := false }),
    ("graph.license.assign",
      { name := "graph.license.assign"
        required_roles := ["it_admin"]
        min_risk_level := .medium
        requires_approval := true }),
    ("graph.license.remove",
      { name := "graph.license.remove"
        required_roles := ["it_admin"]
        min_risk_level := .medium
        requires_approval := true }),
    ("graph.group.add_member",
      { name := "graph.group.add_member"
        required_roles := ["it_admin"]
        min_risk_level := .medium
        requires_approval := true }),
    ("servicenow.incident.search",
      { name := "servicenow.incident.search"
        required_roles := ["it_helpdesk", "it_admin", "viewer"]
        min_risk_level := .low
        requires_approval := false }),
    ("servicenow.incident.create",
      { name := "servicenow.incident.create"
        required_roles := ["it_helpdesk", "it_admin"]
        min_risk_level := .low
        requires_approval := false }),
    ("servicenow.incident.resolve",
      { name := "servicenow.incident.resolve"
        required_roles := ["it_helpdesk", "it_admin"]
        min_risk_level := .low
        requires_approval := false }),
    ("intune.device.get",
      { name := "intune.device.get"
        required_roles := ["it_helpdesk", "it_admin", "viewer"]
        min_risk_level := .low
        requires_approval := false }),
    ("intune.device.sync",
      { name := "intune.device.sync"
        required_roles := ["it_helpdesk", "it_admin"]
        min_risk_level := .low
        requires_approval := false }),
    ("intune.device.restart",
      { name := "intune.device.restart"
        required_roles := ["it_helpdesk", "it_admin"]
        min_risk_level := .medium
        requires_approval := true }),
    ("intune.device.wipe",
      { name := "intune.device.wipe"
        required_roles := ["it_admin"]
        min_risk_level := .critical
        requires_approval := true }) ]

/-- The numeric risk order, `risk_map = {"low": 1, "medium": 2, "high": 3, "critical": 4}`. -/
def risk_map : RiskLevel → Nat
  | .low => 1
  | .medium => 2
  | .high => 3
  | .critical => 4

/-- Enforce authorization for an operation (`authorize` in registry.py).
A raised `AuthorizationError` becomes `Except.error`; falling through all
checks (`return None`) becomes `Except.ok ()`. -/
def authorize (operation : String) (user : UserPrincipal)
    (risk_level : RiskLevel) (approved : Bool := false) :
    Except AuthorizationError Unit :=
  match List.lookup operation _POLICIES with
  | none =>
      Except.error
        { message := "No policy defined for operation \x27" ++ operation ++
            "\x27. Add policy to registry before allowing this operation."
          code := "POLICY_NOT_FOUND" }
  | some policy =>
      if ! policy.required_roles.any (fun role => user.roles.contains role) then
        Except.error
          { message := "User \x27" ++ user.id ++ "\x27 lacks required roles for \x27" ++
              operation ++ "\x27. Required: " ++ pyListRepr policy.required_roles ++
              ", User has: " ++ pyListRepr user.roles
            code := "INSUFFICIENT_ROLES" }
      else if risk_map risk_level < risk_map policy.min_risk_level then
        Except.error
          { message := "Operation \x27" ++ operation ++ "\x27 requires at least \x27" ++
              policy.min_risk_level.toStr ++ "\x27 risk level, but request has \x27" ++
              risk_level.toStr ++ "\x27"
            code := "INSUFFICIENT_RISK_LEVEL" }
      else if policy.requires_approval && ! approved then
        Except.error
          { message := "Operation \x27" ++ operation ++
              "\x27 requires explicit approval. User must confirm before proceeding."
            code := "APPROVAL_REQUIRED" }
      else
        Except.ok ()

/-- Error code of an authorization outcome, `none` on success. -/
def errCode : Except AuthorizationError Unit → Option String
  | .ok _ => none
  | .error e => some e.code

/-- The role check succeeds exactly when the principal holds at least one
required role. -/
theorem roles_any_iff (policy : OperationPolicy) (user : UserPrincipal) :
    (policy.required_roles.any (fun role => user.roles.contains role) = true) ↔
      ∃ role ∈ policy.required_roles, role ∈ user.roles := by
  simp [List.any_eq_true]

/-- Branch lemma: missing policy yields the `POLICY_NOT_FOUND` error. -/
theorem authorize_no_policy (operation : String) (user : UserPrincipal)
    (risk_level : RiskLevel) (approved : Bool)
    (hpol : List.lookup operation _POLICIES = none) :
    errCode (authorize operation user risk_level approved) = some "POLICY_NOT_FOUND" := by
  simp only [authorize, hpol]
  rfl

/-- Branch lemma: failing the role check yields `INSUFFICIENT_ROLES`. -/
theorem authorize_roles_fail (operation : String) (user : UserPrincipal)
    (risk_level : RiskLevel) (approved : Bool) (policy : OperationPolicy)
    (hpol : List.lookup operation _POLICIES = some policy)
    (hb : policy.required_roles.any (fun role => user.roles.contains role) = false) :
    errCode (authorize operation user risk_level approved) = some "INSUFFICIENT_ROLES" := by
  simp only [authorize, hpol]
  rw [if_pos (show (! policy.required_roles.any (fun role => user.roles.contains role)) = true
    by rw [hb]; rfl)]
  rfl

/-- Branch lemma: passing roles but failing the risk check yields
`INSUFFICIENT_RISK_LEVEL`. -/
theorem authorize_risk_fail (operation : String) (user : UserPrincipal)
    (risk_level : RiskLevel) (approved : Bool) (policy : OperationPolicy)
    (hpol : List.lookup operation _POLICIES = some policy)
    (hb : policy.required_roles.any (fun role => user.roles.contains role) = true)
    (hk : risk_map risk_level < risk_map policy.min_risk_level) :
    errCode (authorize operation user risk_level approved) =
      some "INSUFFICIENT_RISK_LEVEL" := by
  simp only [authorize, hpol]
  rw [if_neg (show ¬ (! policy.required_roles.any (fun role => user.roles.contains role)) = true
    by rw [hb]; exact fun h => Bool.noConfusion h), if_pos hk]
  rfl

/-- Branch lemma: passing roles and risk but failing the approval check yields
`APPROVAL_REQUIRED`. -/
theorem authorize_approval_fail (operation : String) (user : UserPrincipal)
    (risk_level : RiskLevel) (approved : Bool) (policy : OperationPolicy)
    (hpol : List.lookup operation _POLICIES = some policy)
    (hb : policy.required_roles.any (fun role => user.roles.contains role) = true)
    (hk : ¬ risk_map risk_level < risk_map policy.min_risk_level)
    (ha : (policy.requires_approval && ! approved) = true) :
    errCode (authorize operation user risk_level approved) = some "APPROVAL_REQUIRED" := by
  simp only [authorize, hpol]
  rw [if_neg (show ¬ (! policy.required_roles.any (fun role => user.roles.contains role)) = true
    by rw [hb]; exact fun h => Bool.noConfusion h), if_neg hk, if_pos ha]
  rfl

/-- Branch lemma: all four checks passing yields success. -/
theorem authorize_passes (operation : String) (user : UserPrincipal)
    (risk_level : RiskLevel) (approved : Bool) (policy : OperationPolicy)
    (hpol : List.lookup operation _POLICIES = some policy)
    (hb : policy.required_roles.any (fun role => user.roles.contains role) = true)
    (hk : ¬ risk_map risk_level < risk_map policy.min_risk_level)
    (ha : (policy.requires_approval && ! approved) = false) :
    authorize operation user risk_level approved = Except.ok () := by
  simp only [authorize, hpol]
  rw [if_neg (show ¬ (! policy.required_roles.any (fun role => user.roles.contains role)) = true
    by rw [hb]; exact fun h => Bool.noConfusion h), if_neg hk,
    if_neg (show ¬ (policy.requires_approval && ! approved) = true
      by rw [ha]; exact fun h => Bool.noConfusion h)]

/-- C1: `authorize` succeeds exactly when a policy exists for the operation,
the principal holds at least one of the required roles, the assessed risk is
at least the policy minimum on the order low<medium<high<critical, and either
approval was granted or the policy does not require approval; when it fails,
the error carries the code of the first failing check, in the order policy
lookup, roles, risk, approval.  The embedding is a pure function, so neither
path modifies any state. -/
theorem authorize_correct (operation : String) (user : UserPrincipal)
    (risk_level : RiskLevel) (approved : Bool) :
    (authorize operation user risk_level approved = Except.ok () ↔
      ∃ policy, List.lookup operation _POLICIES = some policy ∧
        (∃ role ∈ policy.required_roles, role ∈ user.roles) ∧
        risk_map policy.min_risk_level ≤ risk_map risk_level ∧
        (approved = true ∨ policy.requires_approval = false)) ∧
    (List.lookup operation _POLICIES = none →
      errCode (authorize operation user risk_level approved) = some "POLICY_NOT_FOUND") ∧
    (∀ policy, List.lookup operation _POLICIES = some policy →
      (¬ ∃ role ∈ policy.required_roles, role ∈ user.roles) →
      errCode (authorize operation user risk_level approved) = some "INSUFFICIENT_ROLES") ∧
    (∀ policy, List.lookup operation _POLICIES = some policy →
      (∃ role ∈ policy.required_roles, role ∈ user.roles) →
      risk_map risk_level < risk_map policy.min_risk_level →
      errCode (authorize operation user risk_level approved) =
        some "INSUFFICIENT_RISK_LEVEL") ∧
    (∀ policy, List.lookup operation _POLICIES = some policy →
      (∃ role ∈ policy.required_roles, role ∈ user.roles) →
      risk_map policy.min_risk_level ≤ risk_map risk_level →
      policy.requires_approval = true → approved = false →
      errCode (authorize operation user risk_level approved) = some "APPROVAL_REQUIRED") := by
  refine ⟨?_, authorize_no_policy operation user risk_level approved, ?_, ?_, ?_⟩
  · constructor
    · intro hok
      cases hpol : List.lookup operation _POLICIES with
      | none =>
          have := authorize_no_policy operation user risk_level approved hpol
          rw [hok] at this
          exact Option.noConfusion this
      | some policy =>
          cases hb : policy.required_roles.any (fun role => user.roles.contains role) with
          | false =>
              have := authorize_roles_fail operation user risk_level approved policy hpol hb
              rw [hok] at this
              exact Option.noConfusion this
          | true =>
              by_cases hk : risk_map risk_level < risk_map policy.min_risk_level
              · have := authorize_risk_fail operation user risk_level approved policy hpol hb hk
                rw [hok] at this
                exact Option.noConfusion this
              · cases ha : policy.requires_approval && ! approved with
                | true =>
                    have := authorize_approval_fail operation user risk_level approved policy
                      hpol hb hk ha
                    rw [hok] at this
                    exact Option.noConfusion this
                | false =>
                    refine ⟨policy, rfl, (roles_any_iff policy user).mp hb, by omega, ?_⟩
                    cases hra : policy.requires_approval with
                    | false => exact Or.inr rfl
                    | true =>
                        cases hap : approved with
                        | true => exact Or.inl rfl
                        | false => rw [hra, hap] at ha; exact Bool.noConfusion ha
    · rintro ⟨policy, hpol, hex, hk, hap⟩
      refine authorize_passes operation user risk_level approved policy hpol
        ((roles_any_iff policy user).mpr hex) (by omega) ?_
      rcases hap with h1 | h1 <;> simp [h1]
  · intro policy hpol hnr
    refine authorize_roles_fail operation user risk_level approved policy hpol ?_
    cases hb : policy.required_roles.any (fun role => user.roles.contains role) with
    | false => rfl
    | true => exact absurd ((roles_any_iff policy user).mp hb) hnr
  · intro policy hpol hex hk
    exact authorize_risk_fail operation user risk_level approved policy hpol
      ((roles_any_iff policy user).mpr hex) hk
  · intro policy hpol hex hk hra hap
    exact authorize_approval_fail operation user risk_level approved policy hpol
      ((roles_any_iff policy user).mpr hex) (by omega) (by rw [hra, hap]; rfl)

/-- C1 witness: `authorize` succeeds concretely for an admin wiping a device
at critical risk with approval granted. -/
theorem authorize_correct_witness :
    authorize "intune.device.wipe" { id := "alice", roles := ["it_admin"] }
        RiskLevel.critical true = Except.ok () :=
  (authorize_correct "intune.device.wipe" { id := "alice", roles := ["it_admin"] }
      RiskLevel.critical true).1.mpr
    ⟨{ name := "intune.device.wipe", required_roles := ["it_admin"],
       min_risk_level := .critical, requires_approval := true },
     by decide, by decide, by decide, by decide⟩

/-! ## Core models (core/models.py) and agent protocol (core/agent.py) -/

/-- A value in a `details`/`data`/`parameters` map: the source stores either a
string or a list of strings in the dict entries the router produces. -/
inductive DetailValue
  | str (s : String)
  | strList (xs : List String)
deriving DecidableEq, Repr

/-- Context flowing through every request (`RequestContext`). -/
structure RequestContext where
  user_id : String
  source : String
  correlation_id : String
  risk_level : RiskLevel
  tenant_id : Option String := none
  department : Option String := none
  approval_granted : Bool := false
  approver_id : Option String := none
deriving DecidableEq, Repr

/-- Structured input to any agent (`AgentRequest`). -/
structure AgentRequest where
  intent : String
  parameters : List (String × DetailValue) := []
  context : RequestContext
deriving DecidableEq, Repr

/-- Structured error (`AgentError`). -/
structure AgentError where
  code : String
  message : String
  details : Option (List (String × DetailValue)) := none
deriving DecidableEq, Repr

/-- Structured output from any agent (`AgentResponse`). -/
structure AgentResponse where
  success : Bool
  data : Option (List (String × DetailValue)) := none
  error : Option AgentError := none
  agent_name : Option String := none
  execution_time_ms : Option Int := none
deriving DecidableEq, Repr

/-- The agent protocol (`Agent` in core/agent.py): a name, the declared
intents, and the handler.  `handle` is embedded as a pure function. -/
structure Agent where
  name : String
  supported_intents : List String
  handle : AgentRequest → AgentResponse

/-! ## Intent router (orchestration/router.py) -/

/-- The `ValueError` message raised on a duplicate intent registration. -/
def conflict_message (intent existing_name new_name : String) : String :=
  "Intent \x27" ++ intent ++ "\x27 claimed by both \x27" ++ existing_name ++
    "\x27 and \x27" ++ new_name ++
    "\x27. Fix agent definitions - intents must be unique."

/-- The loop body of `register_agent`: insert each declared intent into the
intent map, failing on the first intent already present.  A raised
`ValueError` becomes `Except.error`; the map is an association list in
insertion order, mirroring the Python dict. -/
def register_intents (agent : Agent) :
    List String → List (String × Agent) → Except String (List (String × Agent))
  | [], m => Except.ok m
  | intent :: rest, m =>
      match List.lookup intent m with
      | some existing =>
          Except.error (conflict_message intent existing.name agent.name)
      | none => register_intents agent rest (m ++ [(intent, agent)])

/-- `AgentRouter.register_agent`. -/
def register_agent (m : List (String × Agent)) (agent : Agent) :
    Except String (List (String × Agent)) :=
  register_intents agent agent.supported_intents m

/-- `AgentRouter.route`.  The measured wall-clock latency is outside the
embedding, so the elapsed milliseconds stamped onto the response are taken as
a parameter. -/
def route (m : List (String × Agent)) (request : AgentRequest)
    (elapsed_ms : Int) : AgentResponse :=
  match List.lookup request.intent m with
  | none =>
      { success := false
        error := some
          { code := "UNKNOWN_INTENT"
            message := "No agent registered for intent \x27" ++ request.intent ++ "\x27"
            details := some
              [ ("requested_intent", DetailValue.str request.intent),
                ("available_intents", DetailValue.strList (m.map Prod.fst)) ] } }
  | some agent =>
      let response := agent.handle request
      { response with agent_name := some agent.name
                      execution_time_ms := some elapsed_ms }

/-- Unfolding lemma for `List.lookup` on a cons cell, in `if` form. -/
theorem lookup_cons_if {β : Type} (k a : String) (b : β) (t : List (String × β)) :
    List.lookup k ((a, b) :: t) = if k == a then some b else List.lookup k t := by
  cases h : k == a <;> simp [List.lookup_cons, h]

/-- Association-list lookup distributes over append: the left map wins. -/
theorem lookup_append_or {β : Type} (k : String) (m m2 : List (String × β)) :
    List.lookup k (m ++ m2) = (List.lookup k m).or (List.lookup k m2) := by
  induction m with
  | nil => simp
  | cons p t ih =>
      obtain ⟨a, b⟩ := p
      by_cases h : (k == a) = true
      · simp [lookup_cons_if, h]
      · simp only [List.cons_append, lookup_cons_if, h, if_false]
        exact ih

/-- A successful lookup comes from a member of the association list. -/
theorem lookup_mem {β : Type} (k : String) (v : β) (m : List (String × β))
    (h : List.lookup k m = some v) : (k, v) ∈ m := by
  induction m with
  | nil => cases h
  | cons p t ih =>
      obtain ⟨a, b⟩ := p
      by_cases hk : (k == a) = true
      · rw [lookup_cons_if, if_pos hk] at h
        injection h with h
        have hka : k = a := by simpa using hk
        subst hka
        subst h
        exact List.mem_cons_self _ _
      · rw [lookup_cons_if, if_neg hk] at h
        exact List.mem_cons_of_mem _ (ih h)

/-- A member key makes lookup succeed. -/
theorem lookup_isSome_of_mem {β : Type} (k : String) (v : β) (m : List (String × β))
    (h : (k, v) ∈ m) : (List.lookup k m).isSome = true := by
  induction m with
  | nil => cases h
  | cons p t ih =>
      obtain ⟨a, b⟩ := p
      by_cases hk : (k == a) = true
      · rw [lookup_cons_if, if_pos hk]
        rfl
      · rw [lookup_cons_if, if_neg hk]
        rcases List.mem_cons.mp h with h1 | h1
        · injection h1 with h1 h2
          subst h1
          simp at hk
        · exact ih h1

/-- Unfolding: registering the empty intent list succeeds with the map
unchanged. -/
theorem register_intents_nil (agent : Agent) (m : List (String × Agent)) :
    register_intents agent [] m = Except.ok m := rfl

/-- Unfolding: a head intent already claimed raises the conflict error. -/
theorem register_intents_cons_conflict (agent : Agent) (i : String)
    (rest : List String) (m : List (String × Agent)) (a : Agent)
    (hl : List.lookup i m = some a) :
    register_intents agent (i :: rest) m =
      Except.error (conflict_message i a.name agent.name) := by
  simp [register_intents, hl]

/-- Unfolding: an unclaimed head intent is inserted and registration
continues. -/
theorem register_intents_cons_free (agent : Agent) (i : String)
    (rest : List String) (m : List (String × Agent))
    (hl : List.lookup i m = none) :
    register_intents agent (i :: rest) m =
      register_intents agent rest (m ++ [(i, agent)]) := by
  simp [register_intents, hl]

/-- A successful registration only appends entries, all owned by the
registered agent and keyed by its declared intents. -/
theorem register_intents_ok_append (agent : Agent) :
    ∀ (intents : List String) (m m2 : List (String × Agent)),
      register_intents agent intents m = Except.ok m2 →
      ∃ tail, m2 = m ++ tail ∧ ∀ p ∈ tail, p.2 = agent ∧ p.1 ∈ intents := by
  intro intents
  induction intents with
  | nil =>
      intro m m2 h
      rw [register_intents_nil] at h
      injection h with h
      exact ⟨[], by simp [h], by simp⟩
  | cons i rest ih =>
      intro m m2 h
      cases hl : List.lookup i m with
      | some a =>
          rw [register_intents_cons_conflict agent i rest m a hl] at h
          exact Except.noConfusion h
      | none =>
          rw [register_intents_cons_free agent i rest m hl] at h
          obtain ⟨tail, htl, hall⟩ := ih (m ++ [(i, agent)]) m2 h
          refine ⟨(i, agent) :: tail, by simpa using htl, ?_⟩
          intro p hp
          rcases List.mem_cons.mp hp with h1 | h1
          · subst h1
            exact ⟨rfl, List.mem_cons_self _ _⟩
          · obtain ⟨h2, h3⟩ := hall p h1
            exact ⟨h2, List.mem_cons_of_mem _ h3⟩

/-- A successful registration implies none of the intents was already a key
of the starting map. -/
theorem register_intents_ok_lookup_none (agent : Agent) :
    ∀ (intents : List String) (m m2 : List (String × Agent)),
      register_intents agent intents m = Except.ok m2 →
      ∀ i ∈ intents, List.lookup i m = none := by
  intro intents
  induction intents with
  | nil => intro m m2 _ i hi; cases hi
  | cons i rest ih =>
      intro m m2 h i2 hi2
      cases hl : List.lookup i m with
      | some a =>
          rw [register_intents_cons_conflict agent i rest m a hl] at h
          exact Except.noConfusion h
      | none =>
          rw [register_intents_cons_free agent i rest m hl] at h
          rcases List.mem_cons.mp hi2 with h1 | h1
          · subst h1; exact hl
          · have h2 := ih (m ++ [(i, agent)]) m2 h i2 h1
            rw [lookup_append_or] at h2
            cases hl2 : List.lookup i2 m with
            | none => rfl
            | some b => rw [hl2] at h2; exact Option.noConfusion h2

/-- A successful registration implies the declared intent list has no
duplicates (an intent listed twice would conflict with itself). -/
theorem register_intents_ok_nodup (agent : Agent) :
    ∀ (intents : List String) (m m2 : List (String × Agent)),
      register_intents agent intents m = Except.ok m2 → intents.Nodup := by
  intro intents
  induction intents with
  | nil => intro m m2 _; exact List.nodup_nil
  | cons i rest ih =>
      intro m m2 h
      cases hl : List.lookup i m with
      | some a =>
          rw [register_intents_cons_conflict agent i rest m a hl] at h
          exact Except.noConfusion h
      | none =>
          rw [register_intents_cons_free agent i rest m hl] at h
          refine List.nodup_cons.mpr ⟨?_, ih (m ++ [(i, agent)]) m2 h⟩
          intro hmem
          have h2 := register_intents_ok_lookup_none agent rest (m ++ [(i, agent)]) m2 h i hmem
          rw [lookup_append_or, hl] at h2
          simp [lookup_cons_if] at h2

/-- Every declared intent of a successfully registered agent is present in
the resulting map, owned by that agent. -/
theorem register_intents_ok_key (agent : Agent) :
    ∀ (intents : List String) (m m2 : List (String × Agent)),
      register_intents agent intents m = Except.ok m2 →
      ∀ i ∈ intents, (i, agent) ∈ m2 := by
  intro intents
  induction intents with
  | nil => intro m m2 _ i hi; cases hi
  | cons i rest ih =>
      intro m m2 h i2 hi2
      cases hl : List.lookup i m with
      | some a =>
          rw [register_intents_cons_conflict agent i rest m a hl] at h
          exact Except.noConfusion h
      | none =>
          rw [register_intents_cons_free agent i rest m hl] at h
          rcases List.mem_cons.mp hi2 with h1 | h1
          · subst h1
            obtain ⟨tail, htl, _⟩ := register_intents_ok_append agent rest _ m2 h
            rw [htl]
            exact List.mem_append_left _ (List.mem_append_right _ (List.mem_singleton.mpr rfl))
          · exact ih (m ++ [(i, agent)]) m2 h i2 h1

/-- If some declared intent is already a key of the pre-existing map `m1`,
registration into `m1` extended by any conflict-free accumulator fails,
naming the existing owner and the registering agent. -/
theorem register_intents_conflict (agent : Agent) :
    ∀ (intents : List String) (m1 acc : List (String × Agent)),
      intents.Nodup →
      (∀ i ∈ intents, List.lookup i acc = none) →
      (∃ i ∈ intents, (List.lookup i m1).isSome = true) →
      ∃ i a, List.lookup i m1 = some a ∧
        register_intents agent intents (m1 ++ acc) =
          Except.error (conflict_message i a.name agent.name) := by
  intro intents
  induction intents with
  | nil =>
      intro m1 acc _ _ hex
      simp at hex
  | cons i rest ih =>
      intro m1 acc hnd hdisj hex
      cases hli : List.lookup i m1 with
      | some a =>
          have hfull : List.lookup i (m1 ++ acc) = some a := by
            rw [lookup_append_or, hli]; rfl
          exact ⟨i, a, hli,
            register_intents_cons_conflict agent i rest (m1 ++ acc) a hfull⟩
      | none =>
          have hacc : List.lookup i acc = none := hdisj i (List.mem_cons_self _ _)
          have hfull : List.lookup i (m1 ++ acc) = none := by
            rw [lookup_append_or, hli, hacc]; rfl
          have hstep := register_intents_cons_free agent i rest (m1 ++ acc) hfull
          have hassoc : (m1 ++ acc) ++ [(i, agent)] = m1 ++ (acc ++ [(i, agent)]) :=
            List.append_assoc m1 acc [(i, agent)]
          obtain ⟨hni, hndr⟩ := List.nodup_cons.mp hnd
          have hdisj2 : ∀ i2 ∈ rest, List.lookup i2 (acc ++ [(i, agent)]) = none := by
            intro i2 hi2
            rw [lookup_append_or, hdisj i2 (List.mem_cons_of_mem _ hi2)]
            have hne : i2 ≠ i := fun he => hni (he ▸ hi2)
            simp [lookup_cons_if, hne]
          have hex2 : ∃ i2 ∈ rest, (List.lookup i2 m1).isSome = true := by
            obtain ⟨i0, hi0, hs0⟩ := hex
            rcases List.mem_cons.mp hi0 with h1 | h1
            · subst h1; rw [hli] at hs0; cases hs0
            · exact ⟨i0, h1, hs0⟩
          obtain ⟨i2, a2, h1, h2⟩ := ih m1 (acc ++ [(i, agent)]) hndr hdisj2 hex2
          refine ⟨i2, a2, h1, ?_⟩
          rw [hstep, hassoc]
          exact h2

/-- C6: if two handlers both declare the same intent, and each registers fine
on its own, then whichever of the two is registered second, the registration
fails with a `ValueError` naming both handlers. -/
theorem register_agent_duplicate_intent (h1 h2 : Agent) (x : String)
    (m1 m2 : List (String × Agent))
    (hx1 : x ∈ h1.supported_intents) (hx2 : x ∈ h2.supported_intents)
    (hr1 : register_agent [] h1 = Except.ok m1)
    (hr2 : register_agent [] h2 = Except.ok m2) :
    (∃ i, register_agent m1 h2 = Except.error (conflict_message i h1.name h2.name)) ∧
    (∃ i, register_agent m2 h1 = Except.error (conflict_message i h2.name h1.name)) := by
  have main : ∀ (g1 g2 : Agent) (mm : List (String × Agent)), x ∈ g1.supported_intents →
      x ∈ g2.supported_intents →
      register_agent [] g1 = Except.ok mm →
      g2.supported_intents.Nodup →
      ∃ i, register_agent mm g2 = Except.error (conflict_message i g1.name g2.name) := by
    intro g1 g2 mm hxg1 hxg2 hrg1 hnd2
    have hkey : (x, g1) ∈ mm := register_intents_ok_key g1 g1.supported_intents [] mm hrg1 x hxg1
    have hex : ∃ i ∈ g2.supported_intents, (List.lookup i mm).isSome = true :=
      ⟨x, hxg2, lookup_isSome_of_mem x g1 mm hkey⟩
    have hdisj : ∀ i ∈ g2.supported_intents,
        List.lookup i ([] : List (String × Agent)) = none := by
      intro i _; rfl
    obtain ⟨i, a, hla, herr⟩ :=
      register_intents_conflict g2 g2.supported_intents mm [] hnd2 hdisj hex
    have ha1 : a = g1 := by
      obtain ⟨tail, htl, hall⟩ := register_intents_ok_append g1 g1.supported_intents [] mm hrg1
      have hmem := lookup_mem i a mm hla
      rw [htl] at hmem
      exact (hall (i, a) (by simpa using hmem)).1
    refine ⟨i, ?_⟩
    have hm : mm ++ ([] : List (String × Agent)) = mm := by simp
    show register_intents g2 g2.supported_intents mm = _
    rw [← hm, herr, ha1]
  exact ⟨main h1 h2 m1 hx1 hx2 hr1
          (register_intents_ok_nodup h2 h2.supported_intents [] m2 hr2),
        main h2 h1 m2 hx2 hx1 hr2
          (register_intents_ok_nodup h1 h1.supported_intents [] m1 hr1)⟩

/-- A concrete identity agent used in witnesses. -/
def agentA : Agent :=
  { name := "IdentityAgent"
    supported_intents := ["ad.user.lookup", "ad.password.reset"]
    handle := fun _ => { success := true } }

/-- A concrete device agent that also claims `ad.password.reset`. -/
def agentB : Agent :=
  { name := "DeviceAgent"
    supported_intents := ["ad.password.reset", "intune.device.get"]
    handle := fun _ => { success := false } }

/-- C6 witness: both registration orders of the two concrete agents sharing
`ad.password.reset` fail, naming both agents. -/
theorem register_agent_duplicate_intent_witness :
    (∃ i, register_agent
        [("ad.user.lookup", agentA), ("ad.password.reset", agentA)] agentB =
      Except.error (conflict_message i "IdentityAgent" "DeviceAgent")) ∧
    (∃ i, register_agent
        [("ad.password.reset", agentB), ("intune.device.get", agentB)] agentA =
      Except.error (conflict_message i "DeviceAgent" "IdentityAgent")) :=
  register_agent_duplicate_intent agentA agentB "ad.password.reset"
    [("ad.user.lookup", agentA), ("ad.password.reset", agentA)]
    [("ad.password.reset", agentB), ("intune.device.get", agentB)]
    (by decide) (by decide) rfl rfl

/-- Replace the handler function of an agent, keeping name and intents. -/
def replace_handle (g : Agent → AgentRequest → AgentResponse) (a : Agent) : Agent :=
  { a with handle := g a }

/-- Lookup after mapping over the values of an association list. -/
theorem lookup_map_snd {β γ : Type} (f : β → γ) (k : String)
    (m : List (String × β)) :
    List.lookup k (m.map (fun p => (p.1, f p.2))) = (List.lookup k m).map f := by
  induction m with
  | nil => rfl
  | cons p t ih =>
      obtain ⟨a, b⟩ := p
      by_cases h : (k == a) = true <;>
        simp [lookup_cons_if, h, ih]

/-- C7: routing a request whose intent is not registered returns a failure
response with error code `UNKNOWN_INTENT` and a details map listing every
registered intent, and does so without invoking any handler: the response is
unchanged under arbitrary replacement of every registered handler function. -/
theorem route_unknown_intent (m : List (String × Agent)) (request : AgentRequest)
    (elapsed_ms : Int) (h : List.lookup request.intent m = none) :
    route m request elapsed_ms =
      { success := false
        error := some
          { code := "UNKNOWN_INTENT"
            message := "No agent registered for intent \x27" ++ request.intent ++ "\x27"
            details := some
              [ ("requested_intent", DetailValue.str request.intent),
                ("available_intents", DetailValue.strList (m.map Prod.fst)) ] } } ∧
    ∀ g : Agent → AgentRequest → AgentResponse,
      route (m.map (fun p => (p.1, replace_handle g p.2))) request elapsed_ms =
        route m request elapsed_ms := by
  constructor
  · simp only [route, h]
  · intro g
    have h2 : List.lookup request.intent
        (m.map (fun p => (p.1, replace_handle g p.2))) = none := by
      rw [lookup_map_snd (replace_handle g) request.intent m, h]
      rfl
    have hk : (m.map (fun p => (p.1, replace_handle g p.2))).map Prod.fst =
        m.map Prod.fst := by
      rw [List.map_map]
      exact List.map_congr_left (fun a _ => rfl)
    simp only [route, h, h2, hk]

/-- A concrete request with an unregistered intent, used in witnesses. -/
def reqUnknown : AgentRequest :=
  { intent := "graph.user.get"
    context :=
      { user_id := "u1", source := "cli", correlation_id := "corr-1"
        risk_level := .low } }

/-- C7 witness: the unknown-intent response for a concrete router holding one
agent under one intent. -/
theorem route_unknown_intent_witness :
    route [("ad.user.lookup", agentA)] reqUnknown 5 =
      { success := false
        error := some
          { code := "UNKNOWN_INTENT"
            message := "No agent registered for intent \x27graph.user.get\x27"
            details := some
              [ ("requested_intent", DetailValue.str "graph.user.get"),
                ("available_intents", DetailValue.strList ["ad.user.lookup"]) ] } } :=
  (route_unknown_intent [("ad.user.lookup", agentA)] reqUnknown 5 rfl).1

/-! ## Workflow coordinator (agents/orchestration/workflow_coordinator.py)

Task objects are mutated in place by the coordinator; the embedding passes a
`List WorkflowTask` explicitly, identifying a task object with its position.
`task_map` (a dict from `task_id` to the task object) becomes an association
list from `task_id` to position, built exactly as the dict comprehension
builds it (later duplicate keys overwrite the mapped object but keep the
key's insertion position).  `asyncio.gather` over one ready wave is embedded
as sequential execution of the wave: within a wave the only cross-task writes
are `_skip_dependent_tasks` calls, which touch only `pending` tasks outside
the wave, so every interleaving yields these statuses.  The orchestrator and
the confirmation callback are embedded as pure functions in an environment. -/

/-- `TaskStatus`. -/
inductive TaskStatus
  | pending
  | in_progress
  | completed
  | failed
  | skipped
deriving DecidableEq, Repr

/-- `WorkflowStatus`. -/
inductive WorkflowStatus
  | not_started
  | in_progress
  | completed
  | partially_completed
  | failed
deriving DecidableEq, Repr

/-- `WorkflowTask`: one task of a workflow. -/
structure WorkflowTask where
  task_id : String
  agent_name : String
  query : String
  dependencies : List String
  status : TaskStatus := .pending
  result : Option String := none
  error : Option String := none
  requires_confirmation : Bool := false
  risk_level : String := "LOW"
deriving DecidableEq, Repr

/-- `WorkflowDefinition`. -/
structure WorkflowDefinition where
  workflow_id : String
  name : String
  description : String
  tasks : List WorkflowTask
  created_by : String
  ticket_number : Option String := none
deriving DecidableEq, Repr

/-- One entry of the `results["tasks"]` dict: exactly the three record shapes
the source writes. -/
inductive TaskEntry
  | skipped_declined
  | completed (result : String) (agent : String)
  | failed (error : String) (agent : String)
deriving DecidableEq, Repr

/-- Execution environment: `self.orchestrator.query` as a pure function
(`Except.error` standing for a raised exception) and the optional
confirmation callback. -/
structure ExecEnv where
  query : String → Except String String
  confirmation_callback : Option (String → Bool)

/-- The `task_map` dict comprehension
`{task.task_id: task for task in workflow.tasks}`, as an association list
from `task_id` to position: a repeated key keeps its first position in the
list but is remapped to the later task's position. -/
def build_step (m : List (String × Nat)) (p : Nat × WorkflowTask) :
    List (String × Nat) :=
  if m.any (fun q => q.1 == p.2.task_id) then
    m.map (fun q => if q.1 == p.2.task_id then (q.1, p.1) else q)
  else m ++ [(p.2.task_id, p.1)]

def buildMap (tasks : List WorkflowTask) : List (String × Nat) :=
  tasks.enum.foldl build_step []

/-- The task record produced by `_skip_dependent_tasks` for a skipped
dependent. -/
def skip_update (failed_task_id : String) (t : WorkflowTask) : WorkflowTask :=
  { t with status := TaskStatus.skipped
           result := some ("Skipped due to failed dependency: " ++ failed_task_id) }

/-- `WorkflowCoordinator._skip_dependent_tasks`: iterate the task map values
and mark every pending task depending on the failed task as skipped. -/
def skip_step (failed_task_id : String) (acc : List WorkflowTask)
    (p : String × Nat) : List WorkflowTask :=
  match acc.get? p.2 with
  | some t =>
      if failed_task_id ∈ t.dependencies ∧ t.status = TaskStatus.pending then
        acc.set p.2 (skip_update failed_task_id t)
      else acc
  | none => acc

def skip_dependent_tasks (failed_task_id : String) (tmap : List (String × Nat))
    (tasks : List WorkflowTask) : List WorkflowTask :=
  tmap.foldl (skip_step failed_task_id) tasks

/-- The dependency conjunct of `_get_ready_tasks`:
`all(task_map[d].status == COMPLETED for d in task.dependencies if d in task_map)`. -/
def dep_check (tmap : List (String × Nat)) (tasks : List WorkflowTask)
    (dep_id : String) : Bool :=
  match List.lookup dep_id tmap with
  | none => true
  | some j =>
      match tasks.get? j with
      | some u => u.status == TaskStatus.completed
      | none => false

def dependencies_met (tmap : List (String × Nat)) (tasks : List WorkflowTask)
    (t : WorkflowTask) : Bool :=
  t.dependencies.all (dep_check tmap tasks)

/-- `WorkflowCoordinator._get_ready_tasks`, returning the positions of the
ready tasks in declaration order. -/
def ready_check (tmap : List (String × Nat)) (tasks : List WorkflowTask)
    (i : Nat) : Bool :=
  match tasks.get? i with
  | some t => t.status == TaskStatus.pending && dependencies_met tmap tasks t
  | none => false

def get_ready_tasks (tmap : List (String × Nat)) (tasks : List WorkflowTask) :
    List Nat :=
  (List.range tasks.length).filter (ready_check tmap tasks)

/-- The confirmation prompt string built by `_execute_single_task`. -/
def confirmation_prompt (t : WorkflowTask) : String :=
  "Task: " ++ t.query ++ "\n" ++ "Agent: " ++ t.agent_name ++ "\n" ++
    "Risk: " ++ t.risk_level ++ "\n" ++ "Confirm execution? (yes/no)"

/-- The dispatch tail of `_execute_single_task`: route the query through the
orchestrator; success marks the task completed, an exception marks it failed
and immediately skips its pending dependents. -/
def dispatch_task (env : ExecEnv) (tmap : List (String × Nat))
    (tasks : List WorkflowTask) (i : Nat) (t : WorkflowTask) :
    List WorkflowTask × List (String × TaskEntry) :=
  match env.query ("[" ++ t.agent_name ++ "] " ++ t.query) with
  | Except.ok r =>
      (tasks.set i { t with status := TaskStatus.completed, result := some r },
       [(t.task_id, TaskEntry.completed r t.agent_name)])
  | Except.error e =>
      (skip_dependent_tasks t.task_id tmap
         (tasks.set i { t with status := TaskStatus.failed, error := some e }),
       [(t.task_id, TaskEntry.failed e t.agent_name)])

/-- `WorkflowCoordinator._execute_single_task` on the task at position `i`,
returning the updated task list and the `results["tasks"]` entries appended.
The transient `IN_PROGRESS` write is immediately superseded by the terminal
write to the same task object, so only the final record appears. -/
def execute_single_task (env : ExecEnv) (tmap : List (String × Nat))
    (tasks : List WorkflowTask) (i : Nat) :
    List WorkflowTask × List (String × TaskEntry) :=
  match tasks.get? i with
  | none => (tasks, [])
  | some t =>
      match t.requires_confirmation, env.confirmation_callback with
      | true, some cb =>
          if cb (confirmation_prompt t) then dispatch_task env tmap tasks i t
          else
            (tasks.set i { t with status := TaskStatus.skipped
                                  result := some "Skipped by user" },
             [(t.task_id, TaskEntry.skipped_declined)])
      | true, none => dispatch_task env tmap tasks i t
      | false, _ => dispatch_task env tmap tasks i t

/-- `WorkflowCoordinator._execute_tasks_parallel` over one ready wave (see
the module comment on sequentialising the wave). -/
def execute_tasks_parallel (env : ExecEnv) (tmap : List (String × Nat))
    (ready : List Nat) (tasks : List WorkflowTask)
    (entries : List (String × TaskEntry)) :
    List WorkflowTask × List (String × TaskEntry) :=
  ready.foldl
    (fun s i =>
      let r := execute_single_task env tmap s.1 i
      (r.1, s.2 ++ r.2))
    (tasks, entries)

/-- `WorkflowCoordinator._all_tasks_done`. -/
def all_tasks_done (tasks : List WorkflowTask) : Bool :=
  tasks.all fun t =>
    t.status == TaskStatus.completed || t.status == TaskStatus.failed ||
      t.status == TaskStatus.skipped

/-- `WorkflowCoordinator._has_pending_tasks`. -/
def has_pending_tasks (tasks : List WorkflowTask) : Bool :=
  tasks.any fun t => t.status == TaskStatus.pending

/-- The run-level error string recorded on deadlock. -/
def deadlock_message : String := "Workflow deadlock: No tasks can proceed"

/-- The `while not self._all_tasks_done(workflow)` loop of `execute_workflow`,
with fuel (each productive pass resolves at least one pending task, so
`tasks.length + 1` fuel always reaches a break).  Returns the final task
states, the accumulated `results["tasks"]` entries, and the run-level error
string if the deadlock branch was taken. -/
def run_loop (env : ExecEnv) (tmap : List (String × Nat)) :
    Nat → List WorkflowTask → List (String × TaskEntry) →
    List WorkflowTask × List (String × TaskEntry) × Option String
  | 0, tasks, entries => (tasks, entries, none)
  | fuel + 1, tasks, entries =>
      if all_tasks_done tasks then (tasks, entries, none)
      else
        match get_ready_tasks tmap tasks with
        | [] =>
            if has_pending_tasks tasks then (tasks, entries, some deadlock_message)
            else (tasks, entries, none)
        | i :: ready_rest =>
            let s := execute_tasks_parallel env tmap (i :: ready_rest) tasks entries
            run_loop env tmap fuel s.1 s.2

/-- The aggregate result record returned by `execute_workflow`. -/
structure RunResults where
  workflow_id : String
  name : String
  status : WorkflowStatus
  tasks : List (String × TaskEntry)
  completed_count : Nat
  failed_count : Nat
  skipped_count : Nat
  total_count : Nat
  error : Option String := none
deriving DecidableEq, Repr

/-- Number of tasks currently in a given status. -/
def count_status (tasks : List WorkflowTask) (s : TaskStatus) : Nat :=
  (tasks.filter fun t => t.status == s).length

/-- `WorkflowCoordinator.execute_workflow`: run the loop, then derive counts
and the final status (`completed` if all tasks completed, else
`partially_completed` if some did, else `failed` — this overwrites the status
set by the deadlock branch, whose message survives only in `error`).  Returns
the results record and the final task states. -/
def execute_workflow (env : ExecEnv) (workflow : WorkflowDefinition) :
    RunResults × List WorkflowTask :=
  let tmap := buildMap workflow.tasks
  let out := run_loop env tmap (workflow.tasks.length + 1) workflow.tasks []
  let completed_count := count_status out.1 TaskStatus.completed
  let status :=
    if completed_count = workflow.tasks.length then WorkflowStatus.completed
    else if 0 < completed_count then WorkflowStatus.partially_completed
    else WorkflowStatus.failed
  ({ workflow_id := workflow.workflow_id
     name := workflow.name
     status := status
     tasks := out.2.1
     completed_count := completed_count
     failed_count := count_status out.1 TaskStatus.failed
     skipped_count := count_status out.1 TaskStatus.skipped
     total_count := workflow.tasks.length
     error := out.2.2 },
   out.1)

/-- `WorkflowTemplates.password_reset_and_verify`. -/
def password_reset_and_verify (user_email : String) : WorkflowDefinition :=
  { workflow_id := "pwd_reset_" ++ user_email
    name := "Password Reset & Verification"
    description := "Reset password for " ++ user_email ++ " and verify resolution"
    created_by := "system"
    tasks :=
      [ { task_id := "check_user"
          agent_name := "ADUserLookupAgent"
          query := "Get info for " ++ user_email
          dependencies := []
          risk_level := "LOW" },
        { task_id := "reset_password"
          agent_name := "ADPasswordResetAgent"
          query := "Reset password for " ++ user_email
          dependencies := ["check_user"]
          requires_confirmation := true
          risk_level := "MEDIUM" },
        { task_id := "verify_signin"
          agent_name := "SignInAnalysisAgent"
          query := "Check recent sign-in logs for " ++ user_email
          dependencies := ["reset_password"]
          risk_level := "LOW" } ] }

/-- Coordinator state: the `active_workflows` dict. -/
structure WorkflowCoordinator where
  active_workflows : List (String × WorkflowDefinition)

/-- Python dict assignment `d[k] = v`: update in place if the key exists,
else append. -/
def dict_set {β : Type} (m : List (String × β)) (k : String) (v : β) :
    List (String × β) :=
  if m.any (fun q => q.1 == k) then
    m.map (fun q => if q.1 == k then (k, v) else q)
  else m ++ [(k, v)]

/-- Python `del d[k]` guarded by `if k in d`. -/
def dict_del {β : Type} (m : List (String × β)) (k : String) :
    List (String × β) :=
  m.filter fun q => q.1 != k

/-- `execute_workflow` at coordinator level: record the workflow in
`active_workflows`, run it, and in the `finally` block remove it again.
Returns the coordinator state after the run, the results record and the final
task states. -/
def coordinator_execute_workflow (env : ExecEnv) (c : WorkflowCoordinator)
    (workflow : WorkflowDefinition) :
    WorkflowCoordinator × RunResults × List WorkflowTask :=
  let c1 : WorkflowCoordinator :=
    { active_workflows := dict_set c.active_workflows workflow.workflow_id workflow }
  let out := execute_workflow env workflow
  ({ active_workflows := dict_del c1.active_workflows workflow.workflow_id },
   out.1, out.2)

/-- `task.status.value` strings. -/
def status_value : TaskStatus → String
  | .pending => "pending"
  | .in_progress => "in_progress"
  | .completed => "completed"
  | .failed => "failed"
  | .skipped => "skipped"

/-- The status icon table in `generate_workflow_report`. -/
def status_icon : TaskStatus → String
  | .completed => "✓"
  | .failed => "✗"
  | .skipped => "⊘"
  | .pending => "⏳"
  | .in_progress => "⏳"

/-- The `"=" * 80` separator line. -/
def eq_bar : String := String.mk (List.replicate 80 '=')

/-- `task.result[:100] + "..." if len(task.result) > 100 else task.result`. -/
def result_preview (r : String) : String :=
  if 100 < r.length then r.take 100 ++ "..." else r

/-- The report lines for one task (`enumerate(workflow.tasks, 1)` body);
Python truthiness omits the dependency line for an empty list and the
result/error lines for `None` or the empty string. -/
def task_detail_lines (i : Nat) (t : WorkflowTask) : List String :=
  [ toString i ++ ". " ++ status_icon t.status ++ " " ++ t.task_id,
    "   Agent: " ++ t.agent_name,
    "   Query: " ++ t.query,
    "   Status: " ++ status_value t.status ] ++
  (if t.dependencies.isEmpty then []
   else ["   Dependencies: " ++ String.intercalate ", " t.dependencies]) ++
  (match t.result with
   | some r => if r = "" then [] else ["   Result: " ++ result_preview r]
   | none => []) ++
  (match t.error with
   | some e => if e = "" then [] else ["   Error: " ++ e]
   | none => []) ++
  [""]

/-- The full report body for a registered workflow, as the list of lines that
`generate_workflow_report` joins with newlines. -/
def report_lines (workflow : WorkflowDefinition) : List String :=
  let completed := count_status workflow.tasks TaskStatus.completed
  let failed := count_status workflow.tasks TaskStatus.failed
  let skipped := count_status workflow.tasks TaskStatus.skipped
  let pending := count_status workflow.tasks TaskStatus.pending
  [ eq_bar,
    "WORKFLOW REPORT: " ++ workflow.name,
    eq_bar,
    "ID: " ++ workflow.workflow_id,
    "Description: " ++ workflow.description ] ++
  (match workflow.ticket_number with
   | some tn => if tn = "" then [] else ["Ticket: " ++ tn]
   | none => []) ++
  [ "",
    "STATUS SUMMARY:",
    "  ✓ Completed: " ++ toString completed ++ "/" ++ toString workflow.tasks.length ] ++
  (if 0 < failed then ["  ✗ Failed: " ++ toString failed] else []) ++
  (if 0 < skipped then ["  ⊘ Skipped: " ++ toString skipped] else []) ++
  (if 0 < pending then ["  ⏳ Pending: " ++ toString pending] else []) ++
  [ "",
    "TASK DETAILS:" ] ++
  (workflow.tasks.enum.map fun p => task_detail_lines (p.1 + 1) p.2).flatten

/-- `WorkflowCoordinator.generate_workflow_report`. -/
def generate_workflow_report (c : WorkflowCoordinator) (workflow_id : String) :
    String :=
  match List.lookup workflow_id c.active_workflows with
  | none => "Workflow " ++ workflow_id ++ " not found"
  | some workflow => String.intercalate "\n" (report_lines workflow)

/-! ## Concrete environments and workflows used by counterexamples and
witnesses -/

/-- Environment whose orchestrator always succeeds and whose confirmation
callback always declines. -/
def envOkDecline : ExecEnv :=
  { query := fun _ => Except.ok "done"
    confirmation_callback := some (fun _ => false) }

/-- Environment that declines every confirmation and whose orchestrator
would fail the reset-password dispatch if it were ever reached. -/
def envFailReset : ExecEnv :=
  { query := fun s =>
      if s = "[ADPasswordResetAgent] Reset password for user@example.com" then
        Except.error "handler reached"
      else Except.ok "done"
    confirmation_callback := some (fun _ => false) }

/-- Environment whose orchestrator always raises, with no callback. -/
def envFail : ExecEnv :=
  { query := fun _ => Except.error "boom"
    confirmation_callback := none }

/-- Environment whose orchestrator always succeeds and whose confirmation
callback always confirms. -/
def envOk : ExecEnv :=
  { query := fun _ => Except.ok "ok"
    confirmation_callback := some (fun _ => true) }

/-- The scenario workflow of claim C3. -/
def wfC3 : WorkflowDefinition := password_reset_and_verify "user@example.com"

/-- A three-task chain a ← b ← c. -/
def chainTasks : List WorkflowTask :=
  [ { task_id := "a", agent_name := "A", query := "qa", dependencies := [] },
    { task_id := "b", agent_name := "B", query := "qb", dependencies := ["a"] },
    { task_id := "c", agent_name := "C", query := "qc", dependencies := ["b"] } ]

/-- The chain workflow. -/
def wfChain : WorkflowDefinition :=
  { workflow_id := "chain", name := "Chain", description := "chain workflow"
    tasks := chainTasks, created_by := "system" }

/-- Two tasks depending on each other: a dependency cycle. -/
def cycleTasks : List WorkflowTask :=
  [ { task_id := "a", agent_name := "A", query := "qa", dependencies := ["b"] },
    { task_id := "b", agent_name := "B", query := "qb", dependencies := ["a"] } ]

/-! ## C2, C3: cascading-skip behaviour -/

/-- C2 counterexample: in the chain a ← b ← c with a failing, b is skipped
but c ends `pending`, not `skipped` — the skip does not cascade
transitively. -/
theorem skip_cascade_cex :
    ((execute_workflow envFail wfChain).2.map WorkflowTask.status) =
      [TaskStatus.failed, TaskStatus.skipped, TaskStatus.pending] ∧
    ((execute_workflow envFail wfChain).2.get? 2).map WorkflowTask.status ≠
      some TaskStatus.skipped :=
  ⟨by decide, by decide⟩

/-- C3 counterexample: in the declined-confirmation scenario, verify_signin
ends `pending`, not `skipped`. -/
theorem password_reset_declined_cex :
    ((execute_workflow envOkDecline wfC3).2.map WorkflowTask.status) =
      [TaskStatus.completed, TaskStatus.skipped, TaskStatus.pending] ∧
    ((execute_workflow envOkDecline wfC3).2.get? 2).map WorkflowTask.status ≠
      some TaskStatus.skipped :=
  ⟨by decide, by decide⟩

/-- C3 amended: with the confirmation callback declining reset_password,
check_user ends completed, reset_password ends skipped with the
declined-confirmation entry and the result "Skipped by user", verify_signin
remains pending, the run records the workflow deadlock error, and the
aggregate status is partially_completed; the outcome is identical under an
orchestrator that would fail the reset-password dispatch, so the declined
task is never routed. -/
theorem password_reset_declined_amended :
    (execute_workflow envOkDecline wfC3).1 =
      { workflow_id := "pwd_reset_user@example.com"
        name := "Password Reset & Verification"
        status := WorkflowStatus.partially_completed
        tasks := [("check_user", TaskEntry.completed "done" "ADUserLookupAgent"),
                  ("reset_password", TaskEntry.skipped_declined)]
        completed_count := 1
        failed_count := 0
        skipped_count := 1
        total_count := 3
        error := some deadlock_message } ∧
    ((execute_workflow envOkDecline wfC3).2.map WorkflowTask.status) =
      [TaskStatus.completed, TaskStatus.skipped, TaskStatus.pending] ∧
    ((execute_workflow envOkDecline wfC3).2.get? 1).map WorkflowTask.result =
      some (some "Skipped by user") ∧
    execute_workflow envFailReset wfC3 = execute_workflow envOkDecline wfC3 :=
  ⟨by rfl, by decide, by decide, by rfl⟩

/-! ## C4: deadlock aborts the run -/

/-- On any pass, a pending task refutes `all_tasks_done`. -/
theorem all_tasks_done_false_of_pending (tasks : List WorkflowTask)
    (hpend : has_pending_tasks tasks = true) : all_tasks_done tasks = false := by
  obtain ⟨t, ht, hp⟩ := List.any_eq_true.mp hpend
  cases hd : all_tasks_done tasks with
  | false => rfl
  | true =>
      have h2 := List.all_eq_true.mp hd t ht
      have hp2 : t.status = TaskStatus.pending := by simpa using hp
      rw [hp2] at h2
      exact Bool.noConfusion h2

/-- C4: if on any pass of the execution loop the ready set is empty while a
task is still pending, the loop stops at once with the run-level deadlock
error, leaving every task state and every per-task results entry unchanged —
the failure is recorded for the run as a whole and no further task is
executed. -/
theorem workflow_deadlock_aborts_run (env : ExecEnv) (tmap : List (String × Nat))
    (fuel : Nat) (tasks : List WorkflowTask) (entries : List (String × TaskEntry))
    (hfuel : fuel ≠ 0)
    (hready : get_ready_tasks tmap tasks = [])
    (hpend : has_pending_tasks tasks = true) :
    run_loop env tmap fuel tasks entries = (tasks, entries, some deadlock_message) := by
  cases fuel with
  | zero => exact absurd rfl hfuel
  | succ f =>
      have hnd := all_tasks_done_false_of_pending tasks hpend
      simp only [run_loop, hnd, Bool.false_eq_true, if_false, hready, hpend, if_true]

/-- C4 witness: a two-task dependency cycle deadlocks immediately. -/
theorem workflow_deadlock_aborts_run_witness :
    run_loop envOk (buildMap cycleTasks) 3 cycleTasks [] =
      (cycleTasks, [], some deadlock_message) :=
  workflow_deadlock_aborts_run envOk (buildMap cycleTasks) 3 cycleTasks []
    (by decide) (by decide) (by decide)

/-! ## C8: the report after a finished run -/

/-- Lookup of a deleted key fails. -/
theorem lookup_dict_del {β : Type} (m : List (String × β)) (k : String) :
    List.lookup k (dict_del m k) = none := by
  induction m with
  | nil => rfl
  | cons p t ih =>
      obtain ⟨a, b⟩ := p
      by_cases h : (a != k) = true
      · have hne : k ≠ a := fun he => by simp [he] at h
        rw [dict_del, List.filter_cons, if_pos h]
        rw [show List.filter (fun q => q.1 != k) t = dict_del t k from rfl] at *
        rw [lookup_cons_if, if_neg (by simp [hne])]
        exact ih
      · rw [dict_del, List.filter_cons, if_neg h]
        exact ih

/-- C8 (amended): once `execute_workflow` finishes, the `finally` cleanup has
removed the workflow from `active_workflows`, so `generate_workflow_report`
for that workflow id returns the not-found string instead of a task listing;
the declaration-ordered report is only available while the workflow is still
registered. -/
theorem report_not_found_after_run (env : ExecEnv) (c : WorkflowCoordinator)
    (workflow : WorkflowDefinition) :
    List.lookup workflow.workflow_id
        (coordinator_execute_workflow env c workflow).1.active_workflows = none ∧
    generate_workflow_report (coordinator_execute_workflow env c workflow).1
        workflow.workflow_id =
      "Workflow " ++ workflow.workflow_id ++ " not found" := by
  have hw : (coordinator_execute_workflow env c workflow).1.active_workflows =
      dict_del (dict_set c.active_workflows workflow.workflow_id workflow)
        workflow.workflow_id := rfl
  have hl : List.lookup workflow.workflow_id
      (coordinator_execute_workflow env c workflow).1.active_workflows = none := by
    rw [hw]
    exact lookup_dict_del _ _
  exact ⟨hl, by simp only [generate_workflow_report, hl]⟩

/-- C8 counterexample: after running the password-reset workflow to the end,
the report for its id is the not-found string, which does not even mention
the first task — no per-task report can be rendered any more. -/
theorem report_after_run_cex :
    generate_workflow_report
        (coordinator_execute_workflow envOk { active_workflows := [] } wfC3).1
        "pwd_reset_user@example.com" =
      "Workflow pwd_reset_user@example.com not found" ∧
    ¬ ("check_user".data <:+:
        ("Workflow pwd_reset_user@example.com not found").data) :=
  ⟨by rfl, by decide⟩

/-! ## Loop invariant machinery

The coordinator writes only `status`, `result` and `error`; every other task
field is static.  `Shaped tasks0 ts` says `ts` agrees with the original task
list `tasks0` on all static fields, position by position. -/

/-- Reset the dynamic fields of a task. -/
def erase_dyn (t : WorkflowTask) : WorkflowTask :=
  { t with status := TaskStatus.pending, result := none, error := none }

/-- `ts` agrees with `tasks0` on every static field, position by position. -/
def Shaped (tasks0 ts : List WorkflowTask) : Prop :=
  ts.map erase_dyn = tasks0.map erase_dyn

theorem Shaped.rfl (tasks0 : List WorkflowTask) : Shaped tasks0 tasks0 := Eq.refl _

theorem Shaped.length {tasks0 ts : List WorkflowTask} (h : Shaped tasks0 ts) :
    ts.length = tasks0.length := by
  have h2 := congrArg List.length h
  simpa using h2

theorem Shaped.get {tasks0 ts : List WorkflowTask} (h : Shaped tasks0 ts)
    (j : Nat) (u : WorkflowTask) (hj : ts.get? j = some u) :
    ∃ u0, tasks0.get? j = some u0 ∧ erase_dyn u = erase_dyn u0 := by
  have h1 : (ts.map erase_dyn).get? j = (tasks0.map erase_dyn).get? j := by rw [h]
  rw [List.get?_map, List.get?_map, hj] at h1
  cases h0 : tasks0.get? j with
  | none => rw [h0] at h1; exact Option.noConfusion h1
  | some u0 =>
      rw [h0] at h1
      exact ⟨u0, Eq.refl _, by injection h1⟩

theorem erase_dyn_task_id {u v : WorkflowTask} (h : erase_dyn u = erase_dyn v) :
    u.task_id = v.task_id := by
  have h2 := congrArg WorkflowTask.task_id h
  exact h2

theorem erase_dyn_deps {u v : WorkflowTask} (h : erase_dyn u = erase_dyn v) :
    u.dependencies = v.dependencies := by
  have h2 := congrArg WorkflowTask.dependencies h
  exact h2

/-- Setting a position to the value it already holds is the identity. -/
theorem set_get?_same {α : Type} (l : List α) (i : Nat) (a : α)
    (h : l.get? i = some a) : l.set i a = l := by
  induction l generalizing i with
  | nil => exact Option.noConfusion h
  | cons x t ih =>
      cases i with
      | zero =>
          injection h with h
          rw [List.set_cons_zero, h]
      | succ n =>
          rw [List.set_cons_succ, ih n (by simpa using h)]

/-- Replacing a task by one with equal static fields preserves `Shaped`. -/
theorem Shaped.set {tasks0 ts : List WorkflowTask} (h : Shaped tasks0 ts)
    (i : Nat) (u v : WorkflowTask) (hu : ts.get? i = some u)
    (hv : erase_dyn v = erase_dyn u) : Shaped tasks0 (ts.set i v) := by
  show (ts.set i v).map erase_dyn = tasks0.map erase_dyn
  rw [List.map_set, hv]
  rw [set_get?_same (ts.map erase_dyn) i (erase_dyn u) (by rw [List.get?_map, hu]; rfl)]
  exact h

theorem erase_dyn_skip_update (fid : String) (t : WorkflowTask) :
    erase_dyn (skip_update fid t) = erase_dyn t := Eq.refl _

/-- Unfolding of `skip_step` at a present position. -/
theorem skip_step_eq_some (fid : String) (acc : List WorkflowTask)
    (p : String × Nat) (t : WorkflowTask) (hg : acc.get? p.2 = some t) :
    skip_step fid acc p =
      if fid ∈ t.dependencies ∧ t.status = TaskStatus.pending then
        acc.set p.2 (skip_update fid t)
      else acc := by
  unfold skip_step
  rw [hg]

/-- Unfolding of `skip_step` at a missing position. -/
theorem skip_step_eq_none (fid : String) (acc : List WorkflowTask)
    (p : String × Nat) (hg : acc.get? p.2 = none) :
    skip_step fid acc p = acc := by
  unfold skip_step
  rw [hg]

/-- Effect of one `skip_step` on one position: unchanged, or a pending
dependent of the failed task turned into its skipped form. -/
theorem skip_step_get (fid : String) (acc : List WorkflowTask)
    (p : String × Nat) (j : Nat) :
    ((skip_step fid acc p).get? j = acc.get? j) ∨
    ∃ u, acc.get? j = some u ∧ u.status = TaskStatus.pending ∧
      fid ∈ u.dependencies ∧
      (skip_step fid acc p).get? j = some (skip_update fid u) := by
  cases hg : acc.get? p.2 with
  | none => rw [skip_step_eq_none fid acc p hg]; exact Or.inl (Eq.refl _)
  | some t =>
      rw [skip_step_eq_some fid acc p t hg]
      by_cases hc : fid ∈ t.dependencies ∧ t.status = TaskStatus.pending
      · rw [if_pos hc]
        by_cases hj : p.2 = j
        · subst hj
          refine Or.inr ⟨t, hg, hc.2, hc.1, ?_⟩
          rw [List.get?_set_eq, hg]
          rfl
        · exact Or.inl (List.get?_set_ne _ _ hj)
      · rw [if_neg hc]
        exact Or.inl (Eq.refl _)

/-- Effect of the whole `_skip_dependent_tasks` fold on one position. -/
theorem skip_fold_get (fid : String) (j : Nat) :
    ∀ (entries : List (String × Nat)) (acc : List WorkflowTask),
      ((entries.foldl (skip_step fid) acc).get? j = acc.get? j) ∨
      ∃ u, acc.get? j = some u ∧ u.status = TaskStatus.pending ∧
        fid ∈ u.dependencies ∧
        (entries.foldl (skip_step fid) acc).get? j = some (skip_update fid u) := by
  intro entries
  induction entries with
  | nil => intro acc; exact Or.inl (Eq.refl _)
  | cons p rest ih =>
      intro acc
      rw [List.foldl_cons]
      rcases skip_step_get fid acc p j with h1 | ⟨u, hu, hp, hd, h1⟩
      · rcases ih (skip_step fid acc p) with h2 | ⟨u, hu, hp, hd, h2⟩
        · exact Or.inl (by rw [h2, h1])
        · exact Or.inr ⟨u, h1 ▸ hu, hp, hd, h2⟩
      · rcases ih (skip_step fid acc p) with h2 | ⟨u2, hu2, hp2, hd2, h2⟩
        · exact Or.inr ⟨u, hu, hp, hd, by rw [h2, h1]⟩
        · rw [h1] at hu2
          injection hu2 with he
          rw [← he] at hp2
          simp [skip_update] at hp2

/-- `skip_dependent_tasks` on one position. -/
theorem skip_dependent_tasks_get (fid : String) (tmap : List (String × Nat))
    (ts : List WorkflowTask) (j : Nat) :
    ((skip_dependent_tasks fid tmap ts).get? j = ts.get? j) ∨
    ∃ u, ts.get? j = some u ∧ u.status = TaskStatus.pending ∧
      fid ∈ u.dependencies ∧
      (skip_dependent_tasks fid tmap ts).get? j = some (skip_update fid u) :=
  skip_fold_get fid j tmap ts

/-- The skip fold preserves `Shaped`. -/
theorem skip_fold_shaped (fid : String) (tasks0 : List WorkflowTask) :
    ∀ (entries : List (String × Nat)) (acc : List WorkflowTask),
      Shaped tasks0 acc → Shaped tasks0 (entries.foldl (skip_step fid) acc) := by
  intro entries
  induction entries with
  | nil => intro acc h; exact h
  | cons p rest ih =>
      intro acc h
      rw [List.foldl_cons]
      refine ih (skip_step fid acc p) ?_
      cases hg : acc.get? p.2 with
      | none => rw [skip_step_eq_none fid acc p hg]; exact h
      | some t =>
          rw [skip_step_eq_some fid acc p t hg]
          by_cases hc : fid ∈ t.dependencies ∧ t.status = TaskStatus.pending
          · rw [if_pos hc]
            exact h.set p.2 t (skip_update fid t) hg (erase_dyn_skip_update fid t)
          · rw [if_neg hc]
            exact h

/-- Whether `_execute_single_task` reaches the dispatch: true unless the task
requires confirmation, a callback is present, and it declines. -/
def confirmed (env : ExecEnv) (t : WorkflowTask) : Bool :=
  match t.requires_confirmation, env.confirmation_callback with
  | true, some cb => cb (confirmation_prompt t)
  | true, none => true
  | false, _ => true

/-- `execute_single_task` at a missing position is the identity. -/
theorem execute_single_task_none (env : ExecEnv) (tmap : List (String × Nat))
    (ts : List WorkflowTask) (i : Nat) (h : ts.get? i = none) :
    execute_single_task env tmap ts i = (ts, []) := by
  simp only [execute_single_task, h]

/-- Complete case analysis of `_execute_single_task` at a present position:
dispatch succeeded, dispatch raised (with the immediate dependent skip), or
the confirmation was declined. -/
theorem execute_single_task_cases (env : ExecEnv) (tmap : List (String × Nat))
    (ts : List WorkflowTask) (i : Nat) (t : WorkflowTask)
    (ht : ts.get? i = some t) :
    (∃ r, env.query ("[" ++ t.agent_name ++ "] " ++ t.query) = Except.ok r ∧
       execute_single_task env tmap ts i =
         (ts.set i { t with status := TaskStatus.completed, result := some r },
          [(t.task_id, TaskEntry.completed r t.agent_name)])) ∨
    (∃ e, env.query ("[" ++ t.agent_name ++ "] " ++ t.query) = Except.error e ∧
       execute_single_task env tmap ts i =
         (skip_dependent_tasks t.task_id tmap
            (ts.set i { t with status := TaskStatus.failed, error := some e }),
          [(t.task_id, TaskEntry.failed e t.agent_name)])) ∨
    (confirmed env t = false ∧
       execute_single_task env tmap ts i =
         (ts.set i { t with status := TaskStatus.skipped,
                            result := some "Skipped by user" },
          [(t.task_id, TaskEntry.skipped_declined)])) := by
  have hdisp : ∀ _ : confirmed env t = true,
      (∃ r, env.query ("[" ++ t.agent_name ++ "] " ++ t.query) = Except.ok r ∧
        dispatch_task env tmap ts i t =
          (ts.set i { t with status := TaskStatus.completed, result := some r },
           [(t.task_id, TaskEntry.completed r t.agent_name)])) ∨
      (∃ e, env.query ("[" ++ t.agent_name ++ "] " ++ t.query) = Except.error e ∧
        dispatch_task env tmap ts i t =
          (skip_dependent_tasks t.task_id tmap
             (ts.set i { t with status := TaskStatus.failed, error := some e }),
           [(t.task_id, TaskEntry.failed e t.agent_name)])) := by
    intro _
    cases hq : env.query ("[" ++ t.agent_name ++ "] " ++ t.query) with
    | ok r => exact Or.inl ⟨r, Eq.refl _, by simp only [dispatch_task, hq]⟩
    | error e => exact Or.inr ⟨e, Eq.refl _, by simp only [dispatch_task, hq]⟩
  have hexec : execute_single_task env tmap ts i =
      (if confirmed env t then dispatch_task env tmap ts i t
       else (ts.set i { t with status := TaskStatus.skipped,
                               result := some "Skipped by user" },
             [(t.task_id, TaskEntry.skipped_declined)])) := by
    cases hrc : t.requires_confirmation with
    | false =>
        simp only [execute_single_task, ht, hrc, confirmed]
        cases env.confirmation_callback <;> rfl
    | true =>
        cases hcb : env.confirmation_callback with
        | none =>
            simp only [execute_single_task, ht, hrc, hcb, confirmed]
            rw [if_pos trivial]
        | some cb =>
            simp only [execute_single_task, ht, hrc, hcb, confirmed]
  cases hc : confirmed env t with
  | true =>
      rw [hexec, if_pos (by rw [hc])]
      rcases hdisp hc with ⟨r, h1, h2⟩ | ⟨e, h1, h2⟩
      · exact Or.inl ⟨r, h1, h2⟩
      · exact Or.inr (Or.inl ⟨e, h1, h2⟩)
  | false =>
      rw [hexec, if_neg (by rw [hc]; exact fun h => Bool.noConfusion h)]
      exact Or.inr (Or.inr ⟨Eq.refl false, Eq.refl _⟩)

/-- Effect of `_execute_single_task` on a position other than the executed
one: unchanged, or a pending dependent skipped after a dispatch failure. -/
theorem execute_single_task_fst_get_ne (env : ExecEnv) (tmap : List (String × Nat))
    (ts : List WorkflowTask) (i : Nat) (t : WorkflowTask) (j : Nat)
    (ht : ts.get? i = some t) (hij : j ≠ i) :
    ((execute_single_task env tmap ts i).1.get? j = ts.get? j) ∨
    ∃ u, ts.get? j = some u ∧ u.status = TaskStatus.pending ∧
      t.task_id ∈ u.dependencies ∧
      (execute_single_task env tmap ts i).1.get? j = some (skip_update t.task_id u) := by
  rcases execute_single_task_cases env tmap ts i t ht with
    ⟨r, _, h2⟩ | ⟨e, _, h2⟩ | ⟨_, h2⟩
  · rw [h2]
    exact Or.inl (List.get?_set_ne _ _ (fun he => hij he.symm))
  · rw [h2]
    have hbase : (ts.set i { t with status := TaskStatus.failed, error := some e }).get? j =
        ts.get? j := List.get?_set_ne _ _ (fun he => hij he.symm)
    rcases skip_dependent_tasks_get t.task_id tmap
        (ts.set i { t with status := TaskStatus.failed, error := some e }) j with
      h3 | ⟨u, hu, hp, hd, h3⟩
    · exact Or.inl (by rw [h3, hbase])
    · rw [hbase] at hu
      exact Or.inr ⟨u, hu, hp, hd, h3⟩
  · rw [h2]
    exact Or.inl (List.get?_set_ne _ _ (fun he => hij he.symm))

/-- Effect of `_execute_single_task` on the executed position: same static
fields, terminal status. -/
theorem execute_single_task_fst_get_self (env : ExecEnv) (tmap : List (String × Nat))
    (ts : List WorkflowTask) (i : Nat) (t : WorkflowTask)
    (ht : ts.get? i = some t) :
    ∃ v, (execute_single_task env tmap ts i).1.get? i = some v ∧
      erase_dyn v = erase_dyn t ∧
      (v.status = TaskStatus.completed ∨ v.status = TaskStatus.failed ∨
        v.status = TaskStatus.skipped) := by
  rcases execute_single_task_cases env tmap ts i t ht with
    ⟨r, _, h2⟩ | ⟨e, _, h2⟩ | ⟨_, h2⟩
  · refine ⟨{ t with status := TaskStatus.completed, result := some r }, ?_,
      Eq.refl _, Or.inl (Eq.refl _)⟩
    rw [h2, List.get?_set_eq, ht]
    rfl
  · have hbase : (ts.set i { t with status := TaskStatus.failed, error := some e }).get? i =
        some { t with status := TaskStatus.failed, error := some e } := by
      rw [List.get?_set_eq, ht]; rfl
    rcases skip_dependent_tasks_get t.task_id tmap
        (ts.set i { t with status := TaskStatus.failed, error := some e }) i with
      h3 | ⟨u, hu, hp, _, _⟩
    · refine ⟨{ t with status := TaskStatus.failed, error := some e }, ?_,
        Eq.refl _, Or.inr (Or.inl (Eq.refl _))⟩
      rw [h2, h3, hbase]
    · rw [hbase] at hu
      injection hu with hu
      rw [← hu] at hp
      simp at hp
  · refine ⟨{ t with status := TaskStatus.skipped, result := some "Skipped by user" }, ?_,
      Eq.refl _, Or.inr (Or.inr (Eq.refl _))⟩
    rw [h2, List.get?_set_eq, ht]
    rfl

/-- `_execute_single_task` preserves `Shaped`. -/
theorem execute_single_task_shaped (env : ExecEnv) (tmap : List (String × Nat))
    (tasks0 ts : List WorkflowTask) (i : Nat) (hsh : Shaped tasks0 ts) :
    Shaped tasks0 (execute_single_task env tmap ts i).1 := by
  cases ht : ts.get? i with
  | none => rw [execute_single_task_none env tmap ts i ht]; exact hsh
  | some t =>
      rcases execute_single_task_cases env tmap ts i t ht with
        ⟨r, _, h2⟩ | ⟨e, _, h2⟩ | ⟨_, h2⟩
      · rw [h2]
        exact hsh.set i t _ ht (Eq.refl _)
      · rw [h2]
        exact skip_fold_shaped t.task_id tasks0 tmap _ (hsh.set i t _ ht (Eq.refl _))
      · rw [h2]
        exact hsh.set i t _ ht (Eq.refl _)

/-- The results entries appended by `_execute_single_task` are keyed by the
executed task. -/
theorem execute_single_task_snd (env : ExecEnv) (tmap : List (String × Nat))
    (ts : List WorkflowTask) (i : Nat) (t : WorkflowTask)
    (ht : ts.get? i = some t) :
    ∃ e, (execute_single_task env tmap ts i).2 = [(t.task_id, e)] := by
  rcases execute_single_task_cases env tmap ts i t ht with
    ⟨r, _, h2⟩ | ⟨e, _, h2⟩ | ⟨_, h2⟩
  · exact ⟨TaskEntry.completed r t.agent_name, by rw [h2]⟩
  · exact ⟨TaskEntry.failed e t.agent_name, by rw [h2]⟩
  · exact ⟨TaskEntry.skipped_declined, by rw [h2]⟩

/-! ## The task map: coverage and canonical form -/

/-- Updating the value of one key preserves which lookups succeed. -/
theorem lookup_isSome_update (m : List (String × Nat)) (id : String) (idx : Nat)
    (k : String) :
    (List.lookup k (m.map (fun q => if q.1 == id then (q.1, idx) else q))).isSome =
      (List.lookup k m).isSome := by
  induction m with
  | nil => rfl
  | cons q t ih =>
      obtain ⟨a, b⟩ := q
      rw [List.map_cons]
      rw [show (((a, b) : String × Nat).1 : String) = a from Eq.refl _]
      by_cases hq : (a == id) = true
      · rw [if_pos hq]
        by_cases hk : (k == a) = true
        · rw [lookup_cons_if, if_pos hk, lookup_cons_if, if_pos hk]
          rfl
        · rw [lookup_cons_if, if_neg hk, lookup_cons_if, if_neg hk]
          exact ih
      · rw [if_neg hq]
        by_cases hk : (k == a) = true
        · rw [lookup_cons_if, if_pos hk, lookup_cons_if, if_pos hk]
        · rw [lookup_cons_if, if_neg hk, lookup_cons_if, if_neg hk]
          exact ih

/-- `build_step` preserves existing keys. -/
theorem build_step_keeps_key (m : List (String × Nat)) (p : Nat × WorkflowTask)
    (k : String) (h : (List.lookup k m).isSome = true) :
    (List.lookup k (build_step m p)).isSome = true := by
  unfold build_step
  by_cases ha : m.any (fun q => q.1 == p.2.task_id) = true
  · rw [if_pos ha, lookup_isSome_update]
    exact h
  · rw [if_neg ha, lookup_append_or]
    cases hl : List.lookup k m with
    | some v => rfl
    | none => rw [hl] at h; exact Bool.noConfusion h

/-- After `build_step` processes a task, its id is a key. -/
theorem build_step_key_self (m : List (String × Nat)) (p : Nat × WorkflowTask) :
    (List.lookup p.2.task_id (build_step m p)).isSome = true := by
  unfold build_step
  by_cases ha : m.any (fun q => q.1 == p.2.task_id) = true
  · rw [if_pos ha, lookup_isSome_update]
    obtain ⟨q, hq, he⟩ := List.any_eq_true.mp ha
    have hqe : q.1 = p.2.task_id := by simpa using he
    have hqm : (q.1, q.2) ∈ m := hq
    rw [hqe] at hqm
    exact lookup_isSome_of_mem _ q.2 m hqm
  · rw [if_neg ha, lookup_append_or]
    cases hl : List.lookup p.2.task_id m with
    | some v => rfl
    | none => simp [lookup_cons_if]

/-- Every id occurring in the remaining enum entries (or already a key)
is a key of the finished fold. -/
theorem build_fold_keys :
    ∀ (l : List (Nat × WorkflowTask)) (m : List (String × Nat)) (k : String),
      ((List.lookup k m).isSome = true ∨ ∃ p ∈ l, p.2.task_id = k) →
      (List.lookup k (l.foldl build_step m)).isSome = true := by
  intro l
  induction l with
  | nil =>
      intro m k h
      rcases h with h | ⟨p, hp, _⟩
      · exact h
      · cases hp
  | cons p rest ih =>
      intro m k h
      rw [List.foldl_cons]
      apply ih
      rcases h with h | ⟨q, hq, he⟩
      · exact Or.inl (build_step_keeps_key m p k h)
      · rcases List.mem_cons.mp hq with h1 | h1
        · subst h1
          exact Or.inl (he ▸ build_step_key_self m q)
        · exact Or.inr ⟨q, h1, he⟩

/-- Every task id of the workflow is a key of `buildMap`. -/
theorem buildMap_covers (tasks : List WorkflowTask) (j : Nat) (u : WorkflowTask)
    (hj : tasks.get? j = some u) :
    (List.lookup u.task_id (buildMap tasks)).isSome = true := by
  apply build_fold_keys
  exact Or.inr ⟨(j, u), List.mem_enum_iff_get?.mpr hj, Eq.refl _⟩

/-- With distinct ids, `buildMap` is just the enumeration of the tasks. -/
theorem build_fold_canonical (l : List WorkflowTask) :
    ∀ (k : Nat) (m : List (String × Nat)),
      (∀ t ∈ l, ∀ q ∈ m, q.1 ≠ t.task_id) →
      (l.map WorkflowTask.task_id).Nodup →
      (List.enumFrom k l).foldl build_step m =
        m ++ (List.enumFrom k l).map (fun p => (p.2.task_id, p.1)) := by
  induction l with
  | nil => intro k m _ _; simp
  | cons t rest ih =>
      intro k m hdisj hnd
      rw [List.enumFrom_cons, List.foldl_cons, List.map_cons]
      have hany : m.any (fun q => q.1 == (t.task_id : String)) = false := by
        cases ha : m.any (fun q => q.1 == (t.task_id : String)) with
        | false => rfl
        | true =>
            obtain ⟨q, hq, he⟩ := List.any_eq_true.mp ha
            exact absurd (by simpa using he)
              (hdisj t (List.mem_cons_self _ _) q hq)
      have hcond : ¬ ((m.any fun q => q.1 == ((k, t) : Nat × WorkflowTask).2.task_id) = true) := by
        rw [show (((k, t) : Nat × WorkflowTask).2) = t from Eq.refl _, hany]
        exact fun h => Bool.noConfusion h
      have hstep : build_step m (k, t) = m ++ [(t.task_id, k)] := by
        unfold build_step
        rw [if_neg hcond]
      rw [hstep]
      obtain ⟨hni, hrest⟩ := List.nodup_cons.mp hnd
      rw [ih (k + 1) (m ++ [(t.task_id, k)]) ?_ hrest]
      · rw [List.append_assoc, List.singleton_append]
      · intro t2 ht2 q hq
        rcases List.mem_append.mp hq with h1 | h1
        · exact hdisj t2 (List.mem_cons_of_mem _ ht2) q h1
        · have hq1 : q = (t.task_id, k) := by simpa using h1
          rw [hq1]
          intro he
          have he2 : t.task_id = t2.task_id := he
          exact hni (by rw [he2]; exact List.mem_map_of_mem WorkflowTask.task_id ht2)

/-- `buildMap` under distinct ids. -/
theorem buildMap_nodup_eq (tasks : List WorkflowTask)
    (hnd : (tasks.map WorkflowTask.task_id).Nodup) :
    buildMap tasks = tasks.enum.map (fun p => (p.2.task_id, p.1)) := by
  have h := build_fold_canonical tasks 0 [] (by intro t _ q hq; cases hq) hnd
  simpa using h

/-- Lookup of a task id in the canonical map finds the task position. -/
theorem lookup_canonical (l : List WorkflowTask) :
    ∀ (k j : Nat) (t : WorkflowTask),
      (l.map WorkflowTask.task_id).Nodup → l.get? j = some t →
      List.lookup t.task_id
          ((List.enumFrom k l).map (fun p => (p.2.task_id, p.1))) = some (k + j) := by
  induction l with
  | nil => intro k j t _ h; exact Option.noConfusion h
  | cons u rest ih =>
      intro k j t hnd hj
      rw [List.enumFrom_cons, List.map_cons]
      obtain ⟨hni, hrest⟩ := List.nodup_cons.mp hnd
      cases j with
      | zero =>
          injection hj with hj
          subst hj
          rw [lookup_cons_if, if_pos (by simp)]
          simp
      | succ n =>
          have htr : t ∈ rest := List.get?_mem (show rest.get? n = some t by simpa using hj)
          have hne : t.task_id ≠ u.task_id := by
            intro he
            exact hni (he ▸ List.mem_map_of_mem WorkflowTask.task_id htr)
          rw [lookup_cons_if, if_neg (by simp [hne])]
          rw [ih (k + 1) n t hrest (by simpa using hj)]
          congr 1
          omega

/-- With distinct ids, `buildMap` maps each task id to its position. -/
theorem buildMap_lookup_self {tasks : List WorkflowTask}
    (hnd : (tasks.map WorkflowTask.task_id).Nodup) (j : Nat) (t : WorkflowTask)
    (hj : tasks.get? j = some t) :
    List.lookup t.task_id (buildMap tasks) = some j := by
  rw [buildMap_nodup_eq tasks hnd]
  have h := lookup_canonical tasks 0 j t hnd hj
  simpa using h

/-- With distinct ids, every map entry comes from the task at that
position. -/
theorem buildMap_lookup_inv {tasks : List WorkflowTask}
    (hnd : (tasks.map WorkflowTask.task_id).Nodup) (d : String) (j : Nat)
    (h : List.lookup d (buildMap tasks) = some j) :
    ∃ t, tasks.get? j = some t ∧ t.task_id = d := by
  rw [buildMap_nodup_eq tasks hnd] at h
  have hmem := lookup_mem d j _ h
  rw [List.mem_map] at hmem
  obtain ⟨p, hp, he⟩ := hmem
  injection he with he1 he2
  have hg := List.mem_enum_iff_get?.mp hp
  exact ⟨p.2, he2 ▸ hg, he1⟩

/-! ## The ready set -/

/-- Unfolding lemmas for `dep_check`. -/
theorem dep_check_no_key (tmap : List (String × Nat)) (ts : List WorkflowTask)
    (d : String) (h : List.lookup d tmap = none) : dep_check tmap ts d = true := by
  unfold dep_check
  rw [h]

theorem dep_check_found (tmap : List (String × Nat)) (ts : List WorkflowTask)
    (d : String) (j : Nat) (u : WorkflowTask)
    (hj : List.lookup d tmap = some j) (hg : ts.get? j = some u) :
    dep_check tmap ts d = (u.status == TaskStatus.completed) := by
  have h1 : dep_check tmap ts d =
      (match ts.get? j with
       | some u => u.status == TaskStatus.completed
       | none => false) := by
    unfold dep_check
    rw [hj]
  rw [h1, hg]

theorem dep_check_bad_index (tmap : List (String × Nat)) (ts : List WorkflowTask)
    (d : String) (j : Nat)
    (hj : List.lookup d tmap = some j) (hg : ts.get? j = none) :
    dep_check tmap ts d = false := by
  have h1 : dep_check tmap ts d =
      (match ts.get? j with
       | some u => u.status == TaskStatus.completed
       | none => false) := by
    unfold dep_check
    rw [hj]
  rw [h1, hg]

/-- `dependencies_met` in propositional form. -/
theorem dependencies_met_iff (tmap : List (String × Nat))
    (ts : List WorkflowTask) (t : WorkflowTask) :
    dependencies_met tmap ts t = true ↔
      ∀ d ∈ t.dependencies, ∀ j, List.lookup d tmap = some j →
        ∃ u, ts.get? j = some u ∧ u.status = TaskStatus.completed := by
  unfold dependencies_met
  rw [List.all_eq_true]
  constructor
  · intro h d hd j hj
    have h2 := h d hd
    cases hg : ts.get? j with
    | none =>
        rw [dep_check_bad_index tmap ts d j hj hg] at h2
        exact Bool.noConfusion h2
    | some u =>
        rw [dep_check_found tmap ts d j u hj hg] at h2
        exact ⟨u, Eq.refl _, by simpa using h2⟩
  · intro h d hd
    cases hj : List.lookup d tmap with
    | none => exact dep_check_no_key tmap ts d hj
    | some j =>
        obtain ⟨u, hu, hs⟩ := h d hd j hj
        rw [dep_check_found tmap ts d j u hj hu, hs]
        rfl

/-- A position is in the ready set iff its task is pending with all mapped
dependencies completed. -/
def ReadyAt (tmap : List (String × Nat)) (ts : List WorkflowTask) (i : Nat) :
    Prop :=
  ∃ t, ts.get? i = some t ∧ t.status = TaskStatus.pending ∧
    dependencies_met tmap ts t = true

/-- Unfolding lemmas for `ready_check`. -/
theorem ready_check_found (tmap : List (String × Nat)) (ts : List WorkflowTask)
    (i : Nat) (t : WorkflowTask) (hg : ts.get? i = some t) :
    ready_check tmap ts i =
      (t.status == TaskStatus.pending && dependencies_met tmap ts t) := by
  unfold ready_check
  rw [hg]

theorem ready_check_missing (tmap : List (String × Nat)) (ts : List WorkflowTask)
    (i : Nat) (hg : ts.get? i = none) : ready_check tmap ts i = false := by
  unfold ready_check
  rw [hg]

theorem mem_get_ready_iff (tmap : List (String × Nat)) (ts : List WorkflowTask)
    (i : Nat) : i ∈ get_ready_tasks tmap ts ↔ ReadyAt tmap ts i := by
  unfold get_ready_tasks ReadyAt
  rw [List.mem_filter, List.mem_range]
  constructor
  · rintro ⟨hlt, hp⟩
    cases hg : ts.get? i with
    | none =>
        rw [ready_check_missing tmap ts i hg] at hp
        exact Bool.noConfusion hp
    | some t =>
        rw [ready_check_found tmap ts i t hg, Bool.and_eq_true] at hp
        exact ⟨t, Eq.refl _, by simpa using hp.1, hp.2⟩
  · rintro ⟨t, hg, hs, hm⟩
    obtain ⟨hlt, _⟩ := List.get?_eq_some.mp hg
    refine ⟨hlt, ?_⟩
    rw [ready_check_found tmap ts i t hg, hs, hm]
    rfl

/-- The ready set has no duplicate positions. -/
theorem get_ready_nodup (tmap : List (String × Nat)) (ts : List WorkflowTask) :
    (get_ready_tasks tmap ts).Nodup :=
  (List.nodup_range ts.length).filter _

/-! ## Generic loop invariants

Throughout, `tasks0` is the original task list of the workflow being
executed, assumed to have distinct task ids, and the task map is
`buildMap tasks0`. -/

/-- Unfolding: the loop stops when every task is terminal. -/
theorem run_loop_succ_done (env : ExecEnv) (tmap : List (String × Nat)) (f : Nat)
    (ts : List WorkflowTask) (es : List (String × TaskEntry))
    (h : all_tasks_done ts = true) :
    run_loop env tmap (f + 1) ts es = (ts, es, none) := by
  simp only [run_loop]
  rw [if_pos h]

/-- Unfolding: an empty ready set stops the loop with states unchanged
(deadlock or clean exit). -/
theorem run_loop_succ_stuck (env : ExecEnv) (tmap : List (String × Nat)) (f : Nat)
    (ts : List WorkflowTask) (es : List (String × TaskEntry))
    (h : all_tasks_done ts = false) (hr : get_ready_tasks tmap ts = []) :
    (run_loop env tmap (f + 1) ts es).1 = ts ∧
    (run_loop env tmap (f + 1) ts es).2.1 = es := by
  simp only [run_loop]
  rw [if_neg (by rw [h]; exact fun hc => Bool.noConfusion hc), hr]
  by_cases hp : has_pending_tasks ts = true
  · rw [if_pos hp]
    exact ⟨Eq.refl _, Eq.refl _⟩
  · rw [if_neg hp]
    exact ⟨Eq.refl _, Eq.refl _⟩

/-- Unfolding: a non-empty ready set executes the wave and loops. -/
theorem run_loop_succ_step (env : ExecEnv) (tmap : List (String × Nat)) (f : Nat)
    (ts : List WorkflowTask) (es : List (String × TaskEntry)) (i : Nat)
    (rest : List Nat) (h : all_tasks_done ts = false)
    (hr : get_ready_tasks tmap ts = i :: rest) :
    run_loop env tmap (f + 1) ts es =
      run_loop env tmap f (execute_tasks_parallel env tmap (i :: rest) ts es).1
        (execute_tasks_parallel env tmap (i :: rest) ts es).2 := by
  simp only [run_loop]
  rw [if_neg (by rw [h]; exact fun hc => Bool.noConfusion hc), hr]

/-- Unfolding: one wave step of `_execute_tasks_parallel`. -/
theorem execute_tasks_parallel_cons (env : ExecEnv) (tmap : List (String × Nat))
    (i : Nat) (rest : List Nat) (ts : List WorkflowTask)
    (es : List (String × TaskEntry)) :
    execute_tasks_parallel env tmap (i :: rest) ts es =
      execute_tasks_parallel env tmap rest (execute_single_task env tmap ts i).1
        (es ++ (execute_single_task env tmap ts i).2) := by
  unfold execute_tasks_parallel
  rw [List.foldl_cons]

/-- Executing one ready task keeps every other ready task ready (distinct
ids: a ready task cannot depend on another pending one, and completed
dependencies stay completed). -/
theorem exec_preserves_ready (env : ExecEnv) {tasks0 : List WorkflowTask}
    (hnd : (tasks0.map WorkflowTask.task_id).Nodup)
    (ts : List WorkflowTask) (hsh : Shaped tasks0 ts) (i j : Nat) (hij : j ≠ i)
    (hi : ReadyAt (buildMap tasks0) ts i) (hj : ReadyAt (buildMap tasks0) ts j) :
    ReadyAt (buildMap tasks0) (execute_single_task env (buildMap tasks0) ts i).1 j := by
  obtain ⟨t, hti, htp, htm⟩ := hi
  obtain ⟨u, huj, hup, hum⟩ := hj
  have hlk : List.lookup t.task_id (buildMap tasks0) = some i := by
    obtain ⟨t0, ht0, hed⟩ := hsh.get i t hti
    rw [erase_dyn_task_id hed]
    exact buildMap_lookup_self hnd i t0 ht0
  have hget : (execute_single_task env (buildMap tasks0) ts i).1.get? j = ts.get? j := by
    rcases execute_single_task_fst_get_ne env (buildMap tasks0) ts i t j hti hij with
      h | ⟨u2, hu2, hp2, hd2, _⟩
    · exact h
    · exfalso
      rw [huj] at hu2
      injection hu2 with hu2
      rw [← hu2] at hd2
      obtain ⟨w, hw, hwc⟩ :=
        (dependencies_met_iff (buildMap tasks0) ts u).mp hum t.task_id hd2 i hlk
      rw [hti] at hw
      injection hw with hw
      rw [← hw] at hwc
      rw [htp] at hwc
      exact TaskStatus.noConfusion hwc
  refine ⟨u, by rw [hget]; exact huj, hup, ?_⟩
  rw [dependencies_met_iff]
  intro d hd jd hjd
  obtain ⟨w, hw, hwc⟩ :=
    (dependencies_met_iff (buildMap tasks0) ts u).mp hum d hd jd hjd
  have hne : jd ≠ i := by
    intro he
    rw [he, hti] at hw
    injection hw with hw
    rw [← hw] at hwc
    rw [htp] at hwc
    exact TaskStatus.noConfusion hwc
  rcases execute_single_task_fst_get_ne env (buildMap tasks0) ts i t jd hti hne with
    h | ⟨u2, hu2, hp2, _, _⟩
  · exact ⟨w, by rw [h]; exact hw, hwc⟩
  · exfalso
    rw [hw] at hu2
    injection hu2 with hu2
    rw [← hu2] at hp2
    rw [hwc] at hp2
    exact TaskStatus.noConfusion hp2

/-- Any property preserved by executing one ready task is preserved by a
whole ready wave. -/
theorem batch_exec_inv (env : ExecEnv) {tasks0 : List WorkflowTask}
    (hnd : (tasks0.map WorkflowTask.task_id).Nodup)
    (P : List WorkflowTask → List (String × TaskEntry) → Prop)
    (hP : ∀ ts es i, ReadyAt (buildMap tasks0) ts i → Shaped tasks0 ts → P ts es →
      P (execute_single_task env (buildMap tasks0) ts i).1
        (es ++ (execute_single_task env (buildMap tasks0) ts i).2)) :
    ∀ (ready : List Nat) (ts : List WorkflowTask) (es : List (String × TaskEntry)),
      (∀ i ∈ ready, ReadyAt (buildMap tasks0) ts i) → ready.Nodup →
      Shaped tasks0 ts → P ts es →
      P (execute_tasks_parallel env (buildMap tasks0) ready ts es).1
        (execute_tasks_parallel env (buildMap tasks0) ready ts es).2 ∧
      Shaped tasks0 (execute_tasks_parallel env (buildMap tasks0) ready ts es).1 := by
  intro ready
  induction ready with
  | nil => intro ts es _ _ hsh hp; exact ⟨hp, hsh⟩
  | cons i rest ih =>
      intro ts es hready hnd2 hsh hp
      rw [execute_tasks_parallel_cons]
      obtain ⟨hni, hndr⟩ := List.nodup_cons.mp hnd2
      have hiR : ReadyAt (buildMap tasks0) ts i := hready i (List.mem_cons_self _ _)
      refine ih _ _ ?_ hndr
        (execute_single_task_shaped env (buildMap tasks0) tasks0 ts i hsh)
        (hP ts es i hiR hsh hp)
      intro j hj
      exact exec_preserves_ready env hnd ts hsh i j
        (fun he => hni (he ▸ hj)) hiR (hready j (List.mem_cons_of_mem _ hj))

/-- Any property preserved by executing one ready task is an invariant of
the whole execution loop. -/
theorem run_loop_inv (env : ExecEnv) {tasks0 : List WorkflowTask}
    (hnd : (tasks0.map WorkflowTask.task_id).Nodup)
    (P : List WorkflowTask → List (String × TaskEntry) → Prop)
    (hP : ∀ ts es i, ReadyAt (buildMap tasks0) ts i → Shaped tasks0 ts → P ts es →
      P (execute_single_task env (buildMap tasks0) ts i).1
        (es ++ (execute_single_task env (buildMap tasks0) ts i).2)) :
    ∀ (fuel : Nat) (ts : List WorkflowTask) (es : List (String × TaskEntry)),
      Shaped tasks0 ts → P ts es →
      P (run_loop env (buildMap tasks0) fuel ts es).1
        (run_loop env (buildMap tasks0) fuel ts es).2.1 ∧
      Shaped tasks0 (run_loop env (buildMap tasks0) fuel ts es).1 := by
  intro fuel
  induction fuel with
  | zero => intro ts es hsh hp; exact ⟨hp, hsh⟩
  | succ f ih =>
      intro ts es hsh hp
      cases hdone : all_tasks_done ts with
      | true =>
          rw [run_loop_succ_done env (buildMap tasks0) f ts es hdone]
          exact ⟨hp, hsh⟩
      | false =>
          cases hr : get_ready_tasks (buildMap tasks0) ts with
          | nil =>
              obtain ⟨h1, h2⟩ := run_loop_succ_stuck env (buildMap tasks0) f ts es hdone hr
              rw [h1, h2]
              exact ⟨hp, hsh⟩
          | cons i rest =>
              rw [run_loop_succ_step env (buildMap tasks0) f ts es i rest hdone hr]
              have hready : ∀ k ∈ i :: rest, ReadyAt (buildMap tasks0) ts k := by
                intro k hk
                exact (mem_get_ready_iff (buildMap tasks0) ts k).mp (hr ▸ hk)
              have hnodup : (i :: rest).Nodup := hr ▸ get_ready_nodup (buildMap tasks0) ts
              obtain ⟨hp2, hsh2⟩ :=
                batch_exec_inv env hnd P hP (i :: rest) ts es hready hnodup hsh hp
              exact ih _ _ hsh2 hp2

/-! ## Claim C2: skipping dependents of a failed task -/

/-- `skip_step` does not touch positions other than its entry index. -/
theorem skip_step_get_other (fid : String) (acc : List WorkflowTask)
    (p : String × Nat) (j : Nat) (hne : p.2 ≠ j) :
    (skip_step fid acc p).get? j = acc.get? j := by
  cases hg : acc.get? p.2 with
  | none => rw [skip_step_eq_none fid acc p hg]
  | some t =>
      rw [skip_step_eq_some fid acc p t hg]
      by_cases hc : fid ∈ t.dependencies ∧ t.status = TaskStatus.pending
      · rw [if_pos hc]
        exact List.get?_set_ne _ _ hne
      · rw [if_neg hc]

/-- Completeness of the skip fold: a pending dependent whose position is
visited by some map entry ends skipped. -/
theorem skip_fold_hits (fid : String) :
    ∀ (entries : List (String × Nat)) (acc : List WorkflowTask) (j : Nat)
      (u : WorkflowTask),
      (∃ p ∈ entries, p.2 = j) →
      acc.get? j = some u → u.status = TaskStatus.pending →
      fid ∈ u.dependencies →
      (entries.foldl (skip_step fid) acc).get? j = some (skip_update fid u) := by
  intro entries
  induction entries with
  | nil =>
      intro acc j u hex _ _ _
      obtain ⟨p, hp, _⟩ := hex
      cases hp
  | cons p rest ih =>
      intro acc j u hex hj hup hud
      rw [List.foldl_cons]
      by_cases hpj : p.2 = j
      · have hstep : (skip_step fid acc p).get? j = some (skip_update fid u) := by
          rw [skip_step_eq_some fid acc p u (hpj ▸ hj), if_pos ⟨hud, hup⟩, hpj]
          rw [List.get?_set_eq, hj]
          rfl
        rcases skip_fold_get fid j rest (skip_step fid acc p) with h | ⟨u2, hu2, hp2, _, _⟩
        · rw [h, hstep]
        · rw [hstep] at hu2
          injection hu2 with hu2
          rw [← hu2] at hp2
          simp [skip_update] at hp2
      · obtain ⟨q, hq, hqj⟩ := hex
        rcases List.mem_cons.mp hq with h1 | h1
        · exact absurd (h1 ▸ hqj) hpj
        · exact ih (skip_step fid acc p) j u ⟨q, h1, hqj⟩
            (by rw [skip_step_get_other fid acc p j hpj]; exact hj) hup hud

/-- `skip_dependent_tasks` form of the completeness lemma. -/
theorem skip_dependent_tasks_hits (fid : String) (tmap : List (String × Nat))
    (ts : List WorkflowTask) (j : Nat) (u : WorkflowTask)
    (hex : ∃ p ∈ tmap, p.2 = j) (hj : ts.get? j = some u)
    (hup : u.status = TaskStatus.pending) (hud : fid ∈ u.dependencies) :
    (skip_dependent_tasks fid tmap ts).get? j = some (skip_update fid u) :=
  skip_fold_hits fid tmap ts j u hex hj hup hud

/-- With distinct ids, every valid position is visited by a map entry. -/
theorem buildMap_has_index {tasks0 : List WorkflowTask}
    (hnd : (tasks0.map WorkflowTask.task_id).Nodup) (j : Nat) (u : WorkflowTask)
    (hj : tasks0.get? j = some u) : ∃ p ∈ buildMap tasks0, p.2 = j := by
  rw [buildMap_nodup_eq tasks0 hnd]
  have hmem : (j, u) ∈ tasks0.enum :=
    (@List.mem_enum_iff_get? WorkflowTask (j, u) tasks0).mpr hj
  exact ⟨(u.task_id, j),
    List.mem_map_of_mem (fun p => (p.2.task_id, p.1)) hmem, Eq.refl _⟩

/-- A non-pending task at another position is untouched by
`_execute_single_task`. -/
theorem exec_get_stable (env : ExecEnv) (tmap : List (String × Nat))
    (ts : List WorkflowTask) (i : Nat) (t : WorkflowTask) (j : Nat)
    (u : WorkflowTask) (hti : ts.get? i = some t) (hij : j ≠ i)
    (hj : ts.get? j = some u) (hu : u.status ≠ TaskStatus.pending) :
    (execute_single_task env tmap ts i).1.get? j = some u := by
  rcases execute_single_task_fst_get_ne env tmap ts i t j hti hij with
    h | ⟨u2, hu2, hp2, _, _⟩
  · rw [h]; exact hj
  · exfalso
    rw [hj] at hu2
    injection hu2 with hu2
    rw [← hu2] at hp2
    exact hu hp2

/-- A ready task sees each of its in-workflow dependencies completed. -/
theorem ready_dep_completed {tasks0 : List WorkflowTask}
    (hnd : (tasks0.map WorkflowTask.task_id).Nodup) (ts : List WorkflowTask)
    (t : WorkflowTask) (htm : dependencies_met (buildMap tasks0) ts t = true)
    (a : Nat) (A : WorkflowTask) (haA : tasks0.get? a = some A)
    (hmem : A.task_id ∈ t.dependencies) :
    ∃ w, ts.get? a = some w ∧ w.status = TaskStatus.completed :=
  (dependencies_met_iff (buildMap tasks0) ts t).mp htm A.task_id hmem a
    (buildMap_lookup_self hnd a A haA)

/-- The C2 invariant: fix positions `a`, `b` with the task at `b` depending
on the task at `a`.  If `a` has failed, `b` is skipped; while `a` is neither
completed nor failed, `b` is still pending or skipped.  One ready-task
execution preserves this. -/
theorem invC2_step (env : ExecEnv) {tasks0 : List WorkflowTask}
    (hnd : (tasks0.map WorkflowTask.task_id).Nodup)
    (a b : Nat) (A B : WorkflowTask) (hab : a ≠ b)
    (ha : tasks0.get? a = some A) (hb : tasks0.get? b = some B)
    (hdep : A.task_id ∈ B.dependencies) :
    ∀ (ts : List WorkflowTask) (i : Nat),
      ReadyAt (buildMap tasks0) ts i → Shaped tasks0 ts →
      (∀ ua ub, ts.get? a = some ua → ts.get? b = some ub →
        (ua.status = TaskStatus.failed → ub.status = TaskStatus.skipped) ∧
        (ua.status ≠ TaskStatus.completed → ua.status ≠ TaskStatus.failed →
          ub.status = TaskStatus.pending ∨ ub.status = TaskStatus.skipped)) →
      (∀ ua ub,
        (execute_single_task env (buildMap tasks0) ts i).1.get? a = some ua →
        (execute_single_task env (buildMap tasks0) ts i).1.get? b = some ub →
        (ua.status = TaskStatus.failed → ub.status = TaskStatus.skipped) ∧
        (ua.status ≠ TaskStatus.completed → ua.status ≠ TaskStatus.failed →
          ub.status = TaskStatus.pending ∨ ub.status = TaskStatus.skipped)) := by
  intro ts i hready hsh hpre
  obtain ⟨t, hti, htp, htm⟩ := hready
  have hpreA : ∃ ua0, ts.get? a = some ua0 := by
    have hlt : a < ts.length := by
      rw [hsh.length]
      exact (List.get?_eq_some.mp ha).1
    exact ⟨ts.get ⟨a, hlt⟩, List.get?_eq_get hlt⟩
  have hpreB : ∃ ub0, ts.get? b = some ub0 := by
    have hlt : b < ts.length := by
      rw [hsh.length]
      exact (List.get?_eq_some.mp hb).1
    exact ⟨ts.get ⟨b, hlt⟩, List.get?_eq_get hlt⟩
  obtain ⟨ua0, hua0⟩ := hpreA
  obtain ⟨ub0, hub0⟩ := hpreB
  have hedB : erase_dyn ub0 = erase_dyn B := by
    obtain ⟨B', hB', hed⟩ := hsh.get b ub0 hub0
    rw [hb] at hB'
    injection hB' with hB'
    rw [← hB'] at hed
    exact hed
  rcases execute_single_task_cases env (buildMap tasks0) ts i t hti with
    ⟨r, hq, heq⟩ | ⟨e, hq, heq⟩ | ⟨hc, heq⟩
  · -- dispatch succeeded: the task at i is completed, nothing else changes
    have h1 : (execute_single_task env (buildMap tasks0) ts i).1 =
        ts.set i { t with status := TaskStatus.completed, result := some r } := by
      rw [heq]
    have hself : (execute_single_task env (buildMap tasks0) ts i).1.get? i =
        some { t with status := TaskStatus.completed, result := some r } := by
      rw [h1, List.get?_set_eq, hti]
      rfl
    have hother : ∀ j, j ≠ i →
        (execute_single_task env (buildMap tasks0) ts i).1.get? j = ts.get? j := by
      intro j hj
      rw [h1]
      exact List.get?_set_ne _ _ (fun he => hj he.symm)
    intro ua ub hua hub
    by_cases hia : a = i
    · rw [hia, hself] at hua
      injection hua with hua
      constructor
      · intro hf
        rw [← hua] at hf
        exact TaskStatus.noConfusion hf
      · intro hne _
        exact absurd (by rw [← hua]) hne
    · by_cases hib : b = i
      · have hBt : A.task_id ∈ t.dependencies := by
          obtain ⟨t0, ht0, hed⟩ := hsh.get i t hti
          rw [← hib, hb] at ht0
          injection ht0 with ht0
          rw [erase_dyn_deps hed, ← ht0]
          exact hdep
        obtain ⟨w, hw, hwc⟩ := ready_dep_completed hnd ts t htm a A ha hBt
        rw [hother a hia] at hua
        rw [hw] at hua
        injection hua with hua
        constructor
        · intro hf
          rw [← hua, hwc] at hf
          exact TaskStatus.noConfusion hf
        · intro hne _
          exact absurd (by rw [← hua]; exact hwc) hne
      · rw [hother a hia] at hua
        rw [hother b hib] at hub
        exact hpre ua ub hua hub
  · -- dispatch raised: the task at i failed and its pending dependents skip
    have h1 : (execute_single_task env (buildMap tasks0) ts i).1 =
        skip_dependent_tasks t.task_id (buildMap tasks0)
          (ts.set i { t with status := TaskStatus.failed, error := some e }) := by
      rw [heq]
    have hbase_self :
        (ts.set i { t with status := TaskStatus.failed, error := some e }).get? i =
          some { t with status := TaskStatus.failed, error := some e } := by
      rw [List.get?_set_eq, hti]
      rfl
    have hbase_other : ∀ j, j ≠ i →
        (ts.set i { t with status := TaskStatus.failed, error := some e }).get? j =
          ts.get? j := by
      intro j hj
      exact List.get?_set_ne _ _ (fun he => hj he.symm)
    intro ua ub hua hub
    rw [h1] at hua hub
    by_cases hia : a = i
    · -- the failed task is the dependency A itself
      have htid : t.task_id = A.task_id := by
        obtain ⟨t0, ht0, hed⟩ := hsh.get i t hti
        rw [← hia, ha] at ht0
        injection ht0 with ht0
        rw [erase_dyn_task_id hed, ht0]
      have huaf : ua.status = TaskStatus.failed := by
        rcases skip_dependent_tasks_get t.task_id (buildMap tasks0)
            (ts.set i { t with status := TaskStatus.failed, error := some e }) a with
          hG | ⟨u2, hu2, hp2, _, hG⟩
        · rw [hG, hia, hbase_self] at hua
          injection hua with hua
          rw [← hua]
        · rw [hia, hbase_self] at hu2
          injection hu2 with hu2
          rw [← hu2] at hp2
          exact absurd hp2 (by intro hh; exact TaskStatus.noConfusion hh)
      have hb_pre : ts.get? a = some t := by rw [hia]; exact hti
      have hub0m : ub0.status = TaskStatus.pending ∨ ub0.status = TaskStatus.skipped := by
        refine (hpre t ub0 hb_pre hub0).2 ?_ ?_
        · intro hh; rw [htp] at hh; exact TaskStatus.noConfusion hh
        · intro hh; rw [htp] at hh; exact TaskStatus.noConfusion hh
      have hfid : t.task_id ∈ ub0.dependencies := by
        rw [erase_dyn_deps hedB, htid]
        exact hdep
      have hbne : b ≠ i := fun he => hab (by rw [hia, he])
      have hbase_b :
          (ts.set i { t with status := TaskStatus.failed, error := some e }).get? b =
            some ub0 := by
        rw [hbase_other b hbne]
        exact hub0
      have hubs : ub.status = TaskStatus.skipped := by
        rcases hub0m with hpend | hskip
        · have hhit := skip_dependent_tasks_hits t.task_id (buildMap tasks0)
            (ts.set i { t with status := TaskStatus.failed, error := some e }) b ub0
            (buildMap_has_index hnd b B hb) hbase_b hpend hfid
          rw [hhit] at hub
          injection hub with hub
          rw [← hub]
          rfl
        · rcases skip_dependent_tasks_get t.task_id (buildMap tasks0)
              (ts.set i { t with status := TaskStatus.failed, error := some e }) b with
            hG | ⟨u2, hu2, hp2, _, hG⟩
          · rw [hG, hbase_b] at hub
            injection hub with hub
            rw [← hub]
            exact hskip
          · rw [hbase_b] at hu2
            injection hu2 with hu2
            rw [← hu2] at hp2
            rw [hskip] at hp2
            exact absurd hp2 (by intro hh; exact TaskStatus.noConfusion hh)
      exact ⟨fun _ => hubs, fun _ hnf => absurd huaf hnf⟩
    · by_cases hib : b = i
      · -- the failed task is the dependent itself; its dependency is completed
        have hBt : A.task_id ∈ t.dependencies := by
          obtain ⟨t0, ht0, hed⟩ := hsh.get i t hti
          rw [← hib, hb] at ht0
          injection ht0 with ht0
          rw [erase_dyn_deps hed, ← ht0]
          exact hdep
        obtain ⟨w, hw, hwc⟩ := ready_dep_completed hnd ts t htm a A ha hBt
        have huac : ua.status = TaskStatus.completed := by
          rcases skip_dependent_tasks_get t.task_id (buildMap tasks0)
              (ts.set i { t with status := TaskStatus.failed, error := some e }) a with
            hG | ⟨u2, hu2, hp2, _, hG⟩
          · rw [hG, hbase_other a hia, hw] at hua
            injection hua with hua
            rw [← hua]
            exact hwc
          · rw [hbase_other a hia, hw] at hu2
            injection hu2 with hu2
            rw [← hu2] at hp2
            rw [hwc] at hp2
            exact absurd hp2 (by intro hh; exact TaskStatus.noConfusion hh)
        constructor
        · intro hf
          rw [huac] at hf
          exact TaskStatus.noConfusion hf
        · intro hne _
          exact absurd huac hne
      · -- neither endpoint executed: each may only go pending ↦ skipped
        have hbase_a :
            (ts.set i { t with status := TaskStatus.failed, error := some e }).get? a =
              some ua0 := by
          rw [hbase_other a hia]
          exact hua0
        have hbase_b :
            (ts.set i { t with status := TaskStatus.failed, error := some e }).get? b =
              some ub0 := by
          rw [hbase_other b hib]
          exact hub0
        have hua_case : ua = ua0 ∨
            (ua0.status = TaskStatus.pending ∧ ua = skip_update t.task_id ua0) := by
          rcases skip_dependent_tasks_get t.task_id (buildMap tasks0)
              (ts.set i { t with status := TaskStatus.failed, error := some e }) a with
            hG | ⟨u2, hu2, hp2, _, hG⟩
          · rw [hG, hbase_a] at hua
            injection hua with hua
            exact Or.inl hua.symm
          · rw [hbase_a] at hu2
            injection hu2 with hu2
            rw [hG] at hua
            injection hua with hua
            rw [← hu2] at hp2
            exact Or.inr ⟨hp2, by rw [← hua, hu2]⟩
        have hub_case : ub = ub0 ∨
            (ub0.status = TaskStatus.pending ∧ ub = skip_update t.task_id ub0) := by
          rcases skip_dependent_tasks_get t.task_id (buildMap tasks0)
              (ts.set i { t with status := TaskStatus.failed, error := some e }) b with
            hG | ⟨u2, hu2, hp2, _, hG⟩
          · rw [hG, hbase_b] at hub
            injection hub with hub
            exact Or.inl hub.symm
          · rw [hbase_b] at hu2
            injection hu2 with hu2
            rw [hG] at hub
            injection hub with hub
            rw [← hu2] at hp2
            exact Or.inr ⟨hp2, by rw [← hub, hu2]⟩
        constructor
        · intro hf
          have hua0f : ua0.status = TaskStatus.failed := by
            rcases hua_case with h2 | ⟨hp2, h2⟩
            · rw [← h2]; exact hf
            · rw [h2] at hf
              exact absurd hf (by intro hh; exact TaskStatus.noConfusion hh)
          have hub0s := (hpre ua0 ub0 hua0 hub0).1 hua0f
          rcases hub_case with h2 | ⟨hp2, h2⟩
          · rw [h2]; exact hub0s
          · rw [hub0s] at hp2
            exact absurd hp2 (by intro hh; exact TaskStatus.noConfusion hh)
        · intro hne hnf
          have hub0m : ub0.status = TaskStatus.pending ∨
              ub0.status = TaskStatus.skipped := by
            rcases hua_case with h2 | ⟨hp2, h2⟩
            · exact (hpre ua0 ub0 hua0 hub0).2 (h2 ▸ hne) (h2 ▸ hnf)
            · refine (hpre ua0 ub0 hua0 hub0).2 ?_ ?_
              · intro hh; rw [hp2] at hh; exact TaskStatus.noConfusion hh
              · intro hh; rw [hp2] at hh; exact TaskStatus.noConfusion hh
          rcases hub_case with h2 | ⟨hp2, h2⟩
          · rw [h2]; exact hub0m
          · rw [h2]
            exact Or.inr (Eq.refl _)
  · -- confirmation declined: the task at i is skipped, nothing else changes
    have h1 : (execute_single_task env (buildMap tasks0) ts i).1 =
        ts.set i { t with status := TaskStatus.skipped,
                          result := some "Skipped by user" } := by
      rw [heq]
    have hself : (execute_single_task env (buildMap tasks0) ts i).1.get? i =
        some { t with status := TaskStatus.skipped,
                      result := some "Skipped by user" } := by
      rw [h1, List.get?_set_eq, hti]
      rfl
    have hother : ∀ j, j ≠ i →
        (execute_single_task env (buildMap tasks0) ts i).1.get? j = ts.get? j := by
      intro j hj
      rw [h1]
      exact List.get?_set_ne _ _ (fun he => hj he.symm)
    intro ua ub hua hub
    by_cases hia : a = i
    · rw [hia, hself] at hua
      injection hua with hua
      have hbne : b ≠ i := fun he => hab (by rw [hia, he])
      rw [hother b hbne] at hub
      have hb_pre : ts.get? a = some t := by rw [hia]; exact hti
      have hubm := (hpre t ub hb_pre hub).2
        (by intro hh; rw [htp] at hh; exact TaskStatus.noConfusion hh)
        (by intro hh; rw [htp] at hh; exact TaskStatus.noConfusion hh)
      constructor
      · intro hf
        rw [← hua] at hf
        exact TaskStatus.noConfusion hf
      · intro _ _
        exact hubm
    · by_cases hib : b = i
      · rw [hib, hself] at hub
        injection hub with hub
        constructor
        · intro _
          rw [← hub]
        · intro _ _
          exact Or.inr (by rw [← hub])
      · rw [hother a hia] at hua
        rw [hother b hib] at hub
        exact hpre ua ub hua hub

/-- C2 (amended): in any execution of a workflow with distinct task ids and
all tasks initially pending, if a task ends `failed` then every task directly
depending on it ends `skipped` (in particular never completed or failed).
The skip does not cascade transitively — see `skip_cascade_cex`: a task
depending only on a skipped task stays `pending` and the run aborts via the
deadlock branch. -/
theorem tasks_skipped_on_failed_dependency (env : ExecEnv)
    (wf : WorkflowDefinition) (a b : Nat) (A B : WorkflowTask)
    (hnd : (wf.tasks.map WorkflowTask.task_id).Nodup)
    (hp0 : ∀ t ∈ wf.tasks, t.status = TaskStatus.pending)
    (hab : a ≠ b)
    (ha : wf.tasks.get? a = some A) (hb : wf.tasks.get? b = some B)
    (hdep : A.task_id ∈ B.dependencies) :
    ∀ A2 B2, (execute_workflow env wf).2.get? a = some A2 →
      (execute_workflow env wf).2.get? b = some B2 →
      A2.status = TaskStatus.failed → B2.status = TaskStatus.skipped := by
  intro A2 B2 hA2 hB2 hf
  have hout : (execute_workflow env wf).2 =
      (run_loop env (buildMap wf.tasks) (wf.tasks.length + 1) wf.tasks []).1 :=
    Eq.refl _
  have hinv := run_loop_inv env hnd
    (fun ts _ => ∀ ua ub, ts.get? a = some ua → ts.get? b = some ub →
      (ua.status = TaskStatus.failed → ub.status = TaskStatus.skipped) ∧
      (ua.status ≠ TaskStatus.completed → ua.status ≠ TaskStatus.failed →
        ub.status = TaskStatus.pending ∨ ub.status = TaskStatus.skipped))
    (fun ts _ i hr hsh hp => invC2_step env hnd a b A B hab ha hb hdep ts i hr hsh hp)
    (wf.tasks.length + 1) wf.tasks [] (Shaped.rfl wf.tasks) ?_
  · rw [hout] at hA2 hB2
    exact (hinv.1 A2 B2 hA2 hB2).1 hf
  · intro ua ub hua hub
    have hpa : ua.status = TaskStatus.pending := hp0 ua (List.get?_mem hua)
    have hpb : ub.status = TaskStatus.pending := hp0 ub (List.get?_mem hub)
    constructor
    · intro hff
      rw [hpa] at hff
      exact TaskStatus.noConfusion hff
    · intro _ _
      exact Or.inl hpb

/-- C2 witness: in the chain workflow with a failing orchestrator, the
theorem yields that b (directly depending on the failed a) ends skipped. -/
theorem tasks_skipped_on_failed_dependency_witness :
    ((execute_workflow envFail wfChain).2.get? 1).map WorkflowTask.status =
      some TaskStatus.skipped := by
  have h := tasks_skipped_on_failed_dependency envFail wfChain 0 1
    { task_id := "a", agent_name := "A", query := "qa", dependencies := [] }
    { task_id := "b", agent_name := "B", query := "qb", dependencies := ["a"] }
    (by decide) (by decide) (by decide) (by rfl) (by rfl) (by decide)
  have hA : (execute_workflow envFail wfChain).2.get? 0 =
      some { task_id := "a", agent_name := "A", query := "qa", dependencies := [],
             status := TaskStatus.failed, error := some "boom" } := by decide
  obtain ⟨B2, hB⟩ : ∃ B2, (execute_workflow envFail wfChain).2.get? 1 = some B2 :=
    ⟨_, Eq.refl _⟩
  have hs := h _ B2 hA hB (Eq.refl _)
  rw [hB]
  show some B2.status = some TaskStatus.skipped
  rw [hs]

/-! ## Claim C5: dependency order of dispatch

The `results["tasks"]` entries are appended exactly when a task is dispatched
(moves from pending to in-progress), so the entry list is the dispatch log in
dispatch order.  The invariant: every completed task has a completed entry,
and every logged dispatch is preceded by completed entries for all of its
mapped dependencies. -/

/-- Transfer a successful `get?` across an append on the right. -/
theorem get?_append_of_get? {α : Type} (l1 l2 : List α) (k : Nat) (x : α)
    (h : l1.get? k = some x) : (l1 ++ l2).get? k = some x := by
  rw [List.get?_append (List.get?_eq_some.mp h).1]
  exact h

/-- The C5 invariant is preserved by one ready-task execution. -/
theorem invC5_step (env : ExecEnv) {tasks0 : List WorkflowTask}
    (hnd : (tasks0.map WorkflowTask.task_id).Nodup) :
    ∀ (ts : List WorkflowTask) (es : List (String × TaskEntry)) (i : Nat),
      ReadyAt (buildMap tasks0) ts i → Shaped tasks0 ts →
      ((∀ j u, ts.get? j = some u → u.status = TaskStatus.completed →
          ∃ k r ag, es.get? k = some (u.task_id, TaskEntry.completed r ag)) ∧
       (∀ k id e0, es.get? k = some (id, e0) →
          ∀ j u, tasks0.get? j = some u → u.task_id = id →
            ∀ d ∈ u.dependencies, ∀ m,
              List.lookup d (buildMap tasks0) = some m →
              ∃ k2, k2 < k ∧ ∃ r ag,
                es.get? k2 = some (d, TaskEntry.completed r ag))) →
      ((∀ j u, (execute_single_task env (buildMap tasks0) ts i).1.get? j = some u →
          u.status = TaskStatus.completed →
          ∃ k r ag, (es ++ (execute_single_task env (buildMap tasks0) ts i).2).get? k =
            some (u.task_id, TaskEntry.completed r ag)) ∧
       (∀ k id e0,
          (es ++ (execute_single_task env (buildMap tasks0) ts i).2).get? k =
            some (id, e0) →
          ∀ j u, tasks0.get? j = some u → u.task_id = id →
            ∀ d ∈ u.dependencies, ∀ m,
              List.lookup d (buildMap tasks0) = some m →
              ∃ k2, k2 < k ∧ ∃ r ag,
                (es ++ (execute_single_task env (buildMap tasks0) ts i).2).get? k2 =
                  some (d, TaskEntry.completed r ag))) := by
  intro ts es i hready hsh hpre
  obtain ⟨hCS, hDO⟩ := hpre
  obtain ⟨t, hti, htp, htm⟩ := hready
  obtain ⟨e0n, hsnd⟩ := execute_single_task_snd env (buildMap tasks0) ts i t hti
  -- the only task position with the dispatched id is i
  have huniq : ∀ j u, tasks0.get? j = some u → u.task_id = t.task_id → j = i := by
    intro j u hj hid
    have hlkj := buildMap_lookup_self hnd j u hj
    obtain ⟨t0, ht0, hed⟩ := hsh.get i t hti
    have hlki : List.lookup t.task_id (buildMap tasks0) = some i := by
      rw [erase_dyn_task_id hed]
      exact buildMap_lookup_self hnd i t0 ht0
    rw [hid, hlki] at hlkj
    injection hlkj with hlkj
    exact hlkj.symm
  -- the new entry respects dependency order
  have hnew : ∀ j u, tasks0.get? j = some u → u.task_id = t.task_id →
      ∀ d ∈ u.dependencies, ∀ m, List.lookup d (buildMap tasks0) = some m →
      ∃ k2, k2 < es.length ∧ ∃ r ag,
        es.get? k2 = some (d, TaskEntry.completed r ag) := by
    intro j u hj hid d hd m hm
    have hji := huniq j u hj hid
    obtain ⟨t0, ht0, hed⟩ := hsh.get i t hti
    have hut0 : u = t0 := by
      rw [hji] at hj
      rw [ht0] at hj
      injection hj with hj
      exact hj.symm
    have hdt : d ∈ t.dependencies := by
      rw [erase_dyn_deps hed]
      rw [hut0] at hd
      exact hd
    obtain ⟨w, hw, hwc⟩ := (dependencies_met_iff (buildMap tasks0) ts t).mp htm d hdt m hm
    obtain ⟨k2, r, ag, hk2⟩ := hCS m w hw hwc
    have hwid : w.task_id = d := by
      obtain ⟨t2, ht2, hid2⟩ := buildMap_lookup_inv hnd d m hm
      obtain ⟨t3, ht3, hed3⟩ := hsh.get m w hw
      rw [ht2] at ht3
      injection ht3 with ht3
      rw [erase_dyn_task_id hed3, ← ht3]
      exact hid2
    refine ⟨k2, (List.get?_eq_some.mp hk2).1, r, ag, ?_⟩
    rw [← hwid]
    exact hk2
  have hDO2 : ∀ k id e0,
      (es ++ (execute_single_task env (buildMap tasks0) ts i).2).get? k =
        some (id, e0) →
      ∀ j u, tasks0.get? j = some u → u.task_id = id →
        ∀ d ∈ u.dependencies, ∀ m, List.lookup d (buildMap tasks0) = some m →
        ∃ k2, k2 < k ∧ ∃ r ag,
          (es ++ (execute_single_task env (buildMap tasks0) ts i).2).get? k2 =
            some (d, TaskEntry.completed r ag) := by
    intro k id e2 hk j u hj hid d hd m hm
    rw [hsnd] at hk
    by_cases hlt : k < es.length
    · rw [List.get?_append hlt] at hk
      obtain ⟨k2, hk2lt, r, ag, hk2⟩ := hDO k id e2 hk j u hj hid d hd m hm
      refine ⟨k2, hk2lt, r, ag, ?_⟩
      rw [hsnd]
      exact get?_append_of_get? es _ k2 _ hk2
    · have hk2 : k = es.length := by
        have hlen := (List.get?_eq_some.mp hk).1
        rw [List.length_append, List.length_cons, List.length_nil] at hlen
        omega
      rw [hk2, List.get?_concat_length] at hk
      injection hk with hk2e
      injection hk2e with hk2a hk2b
      obtain ⟨k2, hk2lt, r, ag, hk3⟩ := hnew j u hj (by rw [hid, ← hk2a]) d hd m hm
      refine ⟨k2, by rw [hk2]; exact hk2lt, r, ag, ?_⟩
      rw [hsnd]
      exact get?_append_of_get? es _ k2 _ hk3
  refine ⟨?_, hDO2⟩
  rcases execute_single_task_cases env (buildMap tasks0) ts i t hti with
    ⟨r, hq, heq⟩ | ⟨e, hq, heq⟩ | ⟨hc, heq⟩
  · -- completed: position i gains its completed entry at the end of the log
    intro j u hju huc
    have h1 : (execute_single_task env (buildMap tasks0) ts i).1 =
        ts.set i { t with status := TaskStatus.completed, result := some r } := by
      rw [heq]
    have h2 : (execute_single_task env (buildMap tasks0) ts i).2 =
        [(t.task_id, TaskEntry.completed r t.agent_name)] := by
      rw [heq]
    by_cases hji : j = i
    · rw [hji, h1, List.get?_set_eq, hti] at hju
      injection hju with hju
      refine ⟨es.length, r, t.agent_name, ?_⟩
      rw [h2, ← hju, List.get?_concat_length]
    · rw [h1, List.get?_set_ne _ _ (fun he => hji he.symm)] at hju
      obtain ⟨k, r2, ag, hk⟩ := hCS j u hju huc
      exact ⟨k, r2, ag, by rw [h2]; exact get?_append_of_get? es _ k _ hk⟩
  · -- failed: no position becomes completed
    intro j u hju huc
    have h1 : (execute_single_task env (buildMap tasks0) ts i).1 =
        skip_dependent_tasks t.task_id (buildMap tasks0)
          (ts.set i { t with status := TaskStatus.failed, error := some e }) := by
      rw [heq]
    have h2 : (execute_single_task env (buildMap tasks0) ts i).2 =
        [(t.task_id, TaskEntry.failed e t.agent_name)] := by
      rw [heq]
    have hju2 : ts.get? j = some u := by
      by_cases hji : j = i
      · exfalso
        rw [h1] at hju
        rcases skip_dependent_tasks_get t.task_id (buildMap tasks0)
            (ts.set i { t with status := TaskStatus.failed, error := some e }) j with
          hG | ⟨u2, hu2, hp2, _, hG⟩
        · rw [hG, hji, List.get?_set_eq, hti] at hju
          injection hju with hju
          rw [← hju] at huc
          exact TaskStatus.noConfusion huc
        · rw [hG] at hju
          injection hju with hju
          rw [← hju] at huc
          exact TaskStatus.noConfusion huc
      · rw [h1] at hju
        rcases skip_dependent_tasks_get t.task_id (buildMap tasks0)
            (ts.set i { t with status := TaskStatus.failed, error := some e }) j with
          hG | ⟨u2, hu2, hp2, _, hG⟩
        · rw [hG, List.get?_set_ne _ _ (fun he => hji he.symm)] at hju
          exact hju
        · rw [hG] at hju
          injection hju with hju
          rw [← hju] at huc
          exact TaskStatus.noConfusion huc
    obtain ⟨k, r2, ag, hk⟩ := hCS j u hju2 huc
    exact ⟨k, r2, ag, by rw [h2]; exact get?_append_of_get? es _ k _ hk⟩
  · -- declined: no position becomes completed
    intro j u hju huc
    have h1 : (execute_single_task env (buildMap tasks0) ts i).1 =
        ts.set i { t with status := TaskStatus.skipped,
                          result := some "Skipped by user" } := by
      rw [heq]
    have h2 : (execute_single_task env (buildMap tasks0) ts i).2 =
        [(t.task_id, TaskEntry.skipped_declined)] := by
      rw [heq]
    have hju2 : ts.get? j = some u := by
      by_cases hji : j = i
      · exfalso
        rw [h1, hji, List.get?_set_eq, hti] at hju
        injection hju with hju
        rw [← hju] at huc
        exact TaskStatus.noConfusion huc
      · rw [h1, List.get?_set_ne _ _ (fun he => hji he.symm)] at hju
        exact hju
    obtain ⟨k, r2, ag, hk⟩ := hCS j u hju2 huc
    exact ⟨k, r2, ag, by rw [h2]; exact get?_append_of_get? es _ k _ hk⟩

/-- C5: for a workflow with distinct task ids, all tasks initially pending
and all dependencies referencing tasks of the same workflow, every dispatch
recorded in the `results["tasks"]` log (the moment a task leaves `pending`
for `in-progress`) is preceded, strictly earlier in the log, by a completed
entry for each of its dependencies.  In particular a chain workflow A→B→C
is dispatched strictly in that order. -/
theorem tasks_dispatched_after_dependencies (env : ExecEnv)
    (wf : WorkflowDefinition)
    (hnd : (wf.tasks.map WorkflowTask.task_id).Nodup)
    (hp0 : ∀ t ∈ wf.tasks, t.status = TaskStatus.pending)
    (hdeps : ∀ t ∈ wf.tasks, ∀ d ∈ t.dependencies,
      d ∈ wf.tasks.map WorkflowTask.task_id) :
    ∀ k id e0, (execute_workflow env wf).1.tasks.get? k = some (id, e0) →
      ∀ j u, wf.tasks.get? j = some u → u.task_id = id →
        ∀ d ∈ u.dependencies,
          ∃ k2, k2 < k ∧ ∃ r ag,
            (execute_workflow env wf).1.tasks.get? k2 =
              some (d, TaskEntry.completed r ag) := by
  intro k id e0 hk j u hj hid d hd
  have hout : (execute_workflow env wf).1.tasks =
      (run_loop env (buildMap wf.tasks) (wf.tasks.length + 1) wf.tasks []).2.1 :=
    Eq.refl _
  have hinv := run_loop_inv env hnd
    (fun ts es =>
      (∀ j2 u2, ts.get? j2 = some u2 → u2.status = TaskStatus.completed →
        ∃ k3 r ag, es.get? k3 = some (u2.task_id, TaskEntry.completed r ag)) ∧
      (∀ k3 id2 e2, es.get? k3 = some (id2, e2) →
        ∀ j2 u2, wf.tasks.get? j2 = some u2 → u2.task_id = id2 →
          ∀ d2 ∈ u2.dependencies, ∀ m,
            List.lookup d2 (buildMap wf.tasks) = some m →
            ∃ k4, k4 < k3 ∧ ∃ r ag,
              es.get? k4 = some (d2, TaskEntry.completed r ag)))
    (fun ts es i hr hsh hp => invC5_step env hnd ts es i hr hsh hp)
    (wf.tasks.length + 1) wf.tasks [] (Shaped.rfl wf.tasks) ?_
  · -- the dependency id resolves to a task of the workflow
    obtain ⟨u2, hu2m, hu2id⟩ := List.mem_map.mp (hdeps u (List.get?_mem hj) d hd)
    obtain ⟨m, hm⟩ := List.get?_of_mem hu2m
    have hlk : List.lookup d (buildMap wf.tasks) = some m := by
      rw [← hu2id]
      exact buildMap_lookup_self hnd m u2 hm
    rw [hout] at hk
    obtain ⟨k2, hk2lt, r, ag, hk2⟩ := hinv.1.2 k id e0 hk j u hj hid d hd m hlk
    refine ⟨k2, hk2lt, r, ag, ?_⟩
    rw [hout]
    exact hk2
  · constructor
    · intro j2 u2 hj2 hc2
      rw [hp0 u2 (List.get?_mem hj2)] at hc2
      exact TaskStatus.noConfusion hc2
    · intro k3 id2 e2 hk3
      cases hk3

/-- C5 witness: in the all-success chain run, the dispatch entry of c (at log
position 2) is preceded by a completed entry for its dependency b. -/
theorem tasks_dispatched_after_dependencies_witness :
    ∃ k2, k2 < 2 ∧ ∃ r ag,
      (execute_workflow envOk wfChain).1.tasks.get? k2 =
        some ("b", TaskEntry.completed r ag) :=
  tasks_dispatched_after_dependencies envOk wfChain (by decide) (by decide)
    (by decide) 2 "c" (TaskEntry.completed "ok" "C") (by rfl) 2
    { task_id := "c", agent_name := "C", query := "qc", dependencies := ["b"] }
    (by rfl) (by rfl) "b" (by decide)

/-! ## Claim C9: absent callback means no confirmation step -/

/-- Clear the confirmation flag of a task. -/
def eraseConf (t : WorkflowTask) : WorkflowTask :=
  { t with requires_confirmation := false }

/-- `build_step` only reads the task id, which `eraseConf` keeps. -/
theorem build_step_eraseConf (m : List (String × Nat)) (p : Nat × WorkflowTask) :
    build_step m (Prod.map id eraseConf p) = build_step m p := Eq.refl _

/-- The task map ignores confirmation flags. -/
theorem buildMap_eraseConf (ts : List WorkflowTask) :
    buildMap (ts.map eraseConf) = buildMap ts := by
  unfold buildMap
  rw [List.enum_map, List.foldl_map]
  have h : ∀ (l : List (Nat × WorkflowTask)) (m : List (String × Nat)),
      l.foldl (fun m p => build_step m (Prod.map id eraseConf p)) m =
        l.foldl build_step m := by
    intro l
    induction l with
    | nil => intro m; rfl
    | cons p rest ih =>
        intro m
        rw [List.foldl_cons, List.foldl_cons, build_step_eraseConf]
        exact ih _
  exact h ts.enum []

theorem all_tasks_done_eraseConf (ts : List WorkflowTask) :
    all_tasks_done (ts.map eraseConf) = all_tasks_done ts := by
  unfold all_tasks_done
  rw [List.all_map]
  rfl

theorem has_pending_eraseConf (ts : List WorkflowTask) :
    has_pending_tasks (ts.map eraseConf) = has_pending_tasks ts := by
  unfold has_pending_tasks
  rw [List.any_map]
  rfl

theorem dep_check_eraseConf (tmap : List (String × Nat)) (ts : List WorkflowTask)
    (d : String) : dep_check tmap (ts.map eraseConf) d = dep_check tmap ts d := by
  cases hl : List.lookup d tmap with
  | none => rw [dep_check_no_key _ _ _ hl, dep_check_no_key _ _ _ hl]
  | some j =>
      cases hg : ts.get? j with
      | none =>
          rw [dep_check_bad_index _ _ _ j hl (by rw [List.get?_map, hg]; rfl),
            dep_check_bad_index _ _ _ j hl hg]
      | some u =>
          rw [dep_check_found _ _ _ j (eraseConf u) hl (by rw [List.get?_map, hg]; rfl),
            dep_check_found _ _ _ j u hl hg]
          rfl

theorem dependencies_met_eraseConf (tmap : List (String × Nat))
    (ts : List WorkflowTask) (t : WorkflowTask) :
    dependencies_met tmap (ts.map eraseConf) t = dependencies_met tmap ts t := by
  unfold dependencies_met
  rw [funext (dep_check_eraseConf tmap ts)]

theorem ready_check_eraseConf (tmap : List (String × Nat)) (ts : List WorkflowTask)
    (i : Nat) : ready_check tmap (ts.map eraseConf) i = ready_check tmap ts i := by
  cases hg : ts.get? i with
  | none =>
      rw [ready_check_missing _ _ _ (by rw [List.get?_map, hg]; rfl),
        ready_check_missing _ _ _ hg]
  | some t =>
      rw [ready_check_found _ _ i (eraseConf t) (by rw [List.get?_map, hg]; rfl),
        ready_check_found _ _ i t hg,
        dependencies_met_eraseConf tmap ts (eraseConf t)]
      rfl

theorem get_ready_eraseConf (tmap : List (String × Nat)) (ts : List WorkflowTask) :
    get_ready_tasks tmap (ts.map eraseConf) = get_ready_tasks tmap ts := by
  unfold get_ready_tasks
  rw [List.length_map]
  exact List.filter_congr (fun i _ => ready_check_eraseConf tmap ts i)

theorem skip_step_eraseConf (fid : String) (acc : List WorkflowTask)
    (p : String × Nat) :
    skip_step fid (acc.map eraseConf) p = (skip_step fid acc p).map eraseConf := by
  cases hg : acc.get? p.2 with
  | none =>
      rw [skip_step_eq_none fid _ p (by rw [List.get?_map, hg]; rfl),
        skip_step_eq_none fid acc p hg]
  | some u =>
      rw [skip_step_eq_some fid _ p (eraseConf u) (by rw [List.get?_map, hg]; rfl),
        skip_step_eq_some fid acc p u hg]
      by_cases hc : fid ∈ u.dependencies ∧ u.status = TaskStatus.pending
      · rw [if_pos (show fid ∈ (eraseConf u).dependencies ∧
            (eraseConf u).status = TaskStatus.pending from hc), if_pos hc,
          List.map_set]
        rfl
      · rw [if_neg (show ¬ (fid ∈ (eraseConf u).dependencies ∧
            (eraseConf u).status = TaskStatus.pending) from hc), if_neg hc]

theorem skip_eraseConf (fid : String) (tmap : List (String × Nat))
    (ts : List WorkflowTask) :
    skip_dependent_tasks fid tmap (ts.map eraseConf) =
      (skip_dependent_tasks fid tmap ts).map eraseConf := by
  show tmap.foldl (skip_step fid) (ts.map eraseConf) =
    (tmap.foldl (skip_step fid) ts).map eraseConf
  induction tmap generalizing ts with
  | nil => rfl
  | cons p rest ih =>
      rw [List.foldl_cons, List.foldl_cons, skip_step_eraseConf]
      exact ih _

theorem confirmed_of_no_callback (env : ExecEnv) (t : WorkflowTask)
    (hcb : env.confirmation_callback = none) : confirmed env t = true := by
  unfold confirmed
  rw [hcb]
  cases t.requires_confirmation <;> rfl

theorem exec_eraseConf (env : ExecEnv) (tmap : List (String × Nat))
    (ts : List WorkflowTask) (i : Nat)
    (hcb : env.confirmation_callback = none) :
    execute_single_task env tmap (ts.map eraseConf) i =
      ((execute_single_task env tmap ts i).1.map eraseConf,
       (execute_single_task env tmap ts i).2) := by
  cases hg : ts.get? i with
  | none =>
      rw [execute_single_task_none env tmap _ i (by rw [List.get?_map, hg]; rfl),
        execute_single_task_none env tmap ts i hg]
  | some t =>
      have hgm : (ts.map eraseConf).get? i = some (eraseConf t) := by
        rw [List.get?_map, hg]
        rfl
      rcases execute_single_task_cases env tmap ts i t hg with
        ⟨r, hq, heq⟩ | ⟨e, hq, heq⟩ | ⟨hcf, heq⟩
      · rcases execute_single_task_cases env tmap (ts.map eraseConf) i (eraseConf t) hgm
          with ⟨r2, hq2, heq2⟩ | ⟨e2, hq2, heq2⟩ | ⟨hcf2, heq2⟩
        · have hq2b : env.query ("[" ++ t.agent_name ++ "] " ++ t.query) =
              Except.ok r2 := hq2
          rw [hq] at hq2b
          injection hq2b with hq2b
          simp only [heq, heq2]
          rw [← hq2b, List.map_set]
          rfl
        · have hq2b : env.query ("[" ++ t.agent_name ++ "] " ++ t.query) =
              Except.error e2 := hq2
          rw [hq] at hq2b
          exact Except.noConfusion hq2b
        · rw [show confirmed env (eraseConf t) = true from Eq.refl _] at hcf2
          exact Bool.noConfusion hcf2
      · rcases execute_single_task_cases env tmap (ts.map eraseConf) i (eraseConf t) hgm
          with ⟨r2, hq2, heq2⟩ | ⟨e2, hq2, heq2⟩ | ⟨hcf2, heq2⟩
        · have hq2b : env.query ("[" ++ t.agent_name ++ "] " ++ t.query) =
              Except.ok r2 := hq2
          rw [hq] at hq2b
          exact Except.noConfusion hq2b
        · have hq2b : env.query ("[" ++ t.agent_name ++ "] " ++ t.query) =
              Except.error e2 := hq2
          rw [hq] at hq2b
          injection hq2b with hq2b
          simp only [heq, heq2]
          rw [← hq2b, ← skip_eraseConf, List.map_set]
          rfl
        · rw [show confirmed env (eraseConf t) = true from Eq.refl _] at hcf2
          exact Bool.noConfusion hcf2
      · rw [confirmed_of_no_callback env t hcb] at hcf
        exact Bool.noConfusion hcf

theorem batch_eraseConf (env : ExecEnv) (tmap : List (String × Nat))
    (hcb : env.confirmation_callback = none) :
    ∀ (ready : List Nat) (ts : List WorkflowTask) (es : List (String × TaskEntry)),
      execute_tasks_parallel env tmap ready (ts.map eraseConf) es =
        ((execute_tasks_parallel env tmap ready ts es).1.map eraseConf,
         (execute_tasks_parallel env tmap ready ts es).2) := by
  intro ready
  induction ready with
  | nil => intro ts es; rfl
  | cons i rest ih =>
      intro ts es
      rw [execute_tasks_parallel_cons, execute_tasks_parallel_cons,
        exec_eraseConf env tmap ts i hcb]
      exact ih _ _

theorem run_loop_succ_stuck_eq (env : ExecEnv) (tmap : List (String × Nat))
    (f : Nat) (ts : List WorkflowTask) (es : List (String × TaskEntry))
    (h : all_tasks_done ts = false) (hr : get_ready_tasks tmap ts = []) :
    run_loop env tmap (f + 1) ts es =
      (ts, es, if has_pending_tasks ts then some deadlock_message else none) := by
  simp only [run_loop]
  rw [if_neg (by rw [h]; exact fun hc => Bool.noConfusion hc), hr]
  by_cases hp : has_pending_tasks ts = true
  · rw [if_pos hp, if_pos hp]
  · rw [if_neg hp, if_neg hp]

theorem run_loop_eraseConf (env : ExecEnv) (tmap : List (String × Nat))
    (hcb : env.confirmation_callback = none) :
    ∀ (fuel : Nat) (ts : List WorkflowTask) (es : List (String × TaskEntry)),
      run_loop env tmap fuel (ts.map eraseConf) es =
        ((run_loop env tmap fuel ts es).1.map eraseConf,
         (run_loop env tmap fuel ts es).2.1,
         (run_loop env tmap fuel ts es).2.2) := by
  intro fuel
  induction fuel with
  | zero => intro ts es; rfl
  | succ f ih =>
      intro ts es
      cases hdone : all_tasks_done ts with
      | true =>
          rw [run_loop_succ_done env tmap f ts es hdone,
            run_loop_succ_done env tmap f (ts.map eraseConf) es
              (by rw [all_tasks_done_eraseConf]; exact hdone)]
      | false =>
          have hdone2 : all_tasks_done (ts.map eraseConf) = false := by
            rw [all_tasks_done_eraseConf]
            exact hdone
          cases hr : get_ready_tasks tmap ts with
          | nil =>
              have hr2 : get_ready_tasks tmap (ts.map eraseConf) = [] := by
                rw [get_ready_eraseConf]
                exact hr
              rw [run_loop_succ_stuck_eq env tmap f ts es hdone hr,
                run_loop_succ_stuck_eq env tmap f (ts.map eraseConf) es hdone2 hr2,
                has_pending_eraseConf]
          | cons i rest =>
              have hr2 : get_ready_tasks tmap (ts.map eraseConf) = i :: rest := by
                rw [get_ready_eraseConf]
                exact hr
              rw [run_loop_succ_step env tmap f ts es i rest hdone hr,
                run_loop_succ_step env tmap f (ts.map eraseConf) es i rest hdone2 hr2,
                batch_eraseConf env tmap hcb (i :: rest) ts es]
              exact ih _ _

theorem count_status_eraseConf (ts : List WorkflowTask) (s : TaskStatus) :
    count_status (ts.map eraseConf) s = count_status ts s := by
  unfold count_status
  rw [← List.countP_eq_length_filter, ← List.countP_eq_length_filter,
    List.countP_map]
  rfl

/-- C9: with no confirmation callback, every confirmation-requiring task is
dispatched exactly as if it did not require confirmation: running the
workflow with all confirmation flags cleared yields the identical results
record and the identical task states (up to the cleared flag). -/
theorem no_callback_ignores_confirmation (env : ExecEnv) (wf : WorkflowDefinition)
    (h : env.confirmation_callback = none) :
    execute_workflow env { wf with tasks := wf.tasks.map eraseConf } =
      ((execute_workflow env wf).1, (execute_workflow env wf).2.map eraseConf) := by
  simp only [execute_workflow]
  simp only [buildMap_eraseConf, List.length_map,
    run_loop_eraseConf env (buildMap wf.tasks) h, count_status_eraseConf]

/-- C9 witness: concretely, running the password-reset workflow without a
callback ignores the reset-password confirmation flag. -/
theorem no_callback_ignores_confirmation_witness :
    execute_workflow envFail { wfC3 with tasks := wfC3.tasks.map eraseConf } =
      ((execute_workflow envFail wfC3).1,
       (execute_workflow envFail wfC3).2.map eraseConf) :=
  no_callback_ignores_confirmation envFail wfC3 (Eq.refl _)


/-! ## C10: dependency ids outside the workflow are ignored -/

/-- Results entries accumulated so far survive the rest of a wave. -/
theorem batch_entries_mono (env : ExecEnv) (tmap : List (String × Nat)) :
    ∀ (ready : List Nat) (ts : List WorkflowTask)
      (es : List (String × TaskEntry)) (m : String × TaskEntry),
      m ∈ es → m ∈ (execute_tasks_parallel env tmap ready ts es).2 := by
  intro ready
  induction ready with
  | nil => intro ts es m hm; exact hm
  | cons j rest ih =>
      intro ts es m hm
      rw [execute_tasks_parallel_cons]
      exact ih _ _ m (List.mem_append.mpr (Or.inl hm))

/-- Results entries accumulated so far survive the rest of the run. -/
theorem run_loop_entries_mono (env : ExecEnv) (tmap : List (String × Nat)) :
    ∀ (f : Nat) (ts : List WorkflowTask) (es : List (String × TaskEntry))
      (m : String × TaskEntry), m ∈ es → m ∈ (run_loop env tmap f ts es).2.1 := by
  intro f
  induction f with
  | zero => intro ts es m hm; exact hm
  | succ f ih =>
      intro ts es m hm
      cases hdone : all_tasks_done ts with
      | true =>
          rw [run_loop_succ_done env tmap f ts es hdone]
          exact hm
      | false =>
          cases hr : get_ready_tasks tmap ts with
          | nil =>
              rw [run_loop_succ_stuck_eq env tmap f ts es hdone hr]
              exact hm
          | cons r0 rest =>
              rw [run_loop_succ_step env tmap f ts es r0 rest hdone hr]
              exact ih _ _ m (batch_entries_mono env tmap (r0 :: rest) ts es m hm)

/-- During a wave, a pending task none of whose dependency ids is a key of
the task map is never skipped by another wave member (any failing member has
its own id in the map), and records its own results entry when its turn
comes. -/
theorem batch_entry_of_unmapped_deps (env : ExecEnv) {tasks0 : List WorkflowTask}
    (t : WorkflowTask)
    (hext : ∀ d ∈ t.dependencies, List.lookup d (buildMap tasks0) = none)
    (i : Nat) :
    ∀ (ready : List Nat) (ts : List WorkflowTask)
      (es : List (String × TaskEntry)),
      Shaped tasks0 ts → i ∈ ready → ts.get? i = some t →
      ∃ e, (t.task_id, e) ∈
        (execute_tasks_parallel env (buildMap tasks0) ready ts es).2 := by
  intro ready
  induction ready with
  | nil =>
      intro ts es _ hmem _
      exact absurd hmem (List.not_mem_nil i)
  | cons j rest ih =>
      intro ts es hsh hmem hti
      rw [execute_tasks_parallel_cons]
      by_cases hij : j = i
      · subst hij
        obtain ⟨e, he⟩ := execute_single_task_snd env (buildMap tasks0) ts j t hti
        refine ⟨e, batch_entries_mono env (buildMap tasks0) rest _ _ _ ?_⟩
        rw [he]
        exact List.mem_append.mpr (Or.inr (List.mem_singleton.mpr (Eq.refl _)))
      · have hmem2 : i ∈ rest := by
          rcases List.mem_cons.mp hmem with h | h
          · exact absurd h.symm hij
          · exact h
        have hti2 : (execute_single_task env (buildMap tasks0) ts j).1.get? i =
            some t := by
          cases hw : ts.get? j with
          | none =>
              rw [execute_single_task_none env (buildMap tasks0) ts j hw]
              exact hti
          | some w =>
              rcases execute_single_task_fst_get_ne env (buildMap tasks0) ts j w i
                  hw (fun he => hij he.symm) with h | ⟨u, hu, _, hdep, _⟩
              · rw [h]
                exact hti
              · exfalso
                rw [hti] at hu
                injection hu with hu
                rw [← hu] at hdep
                obtain ⟨w0, hw0, hsh0⟩ := hsh.get j w hw
                have hid : w.task_id = w0.task_id := erase_dyn_task_id hsh0
                have hcov := buildMap_covers tasks0 j w0 hw0
                rw [← hid] at hcov
                rw [hext w.task_id hdep] at hcov
                exact Bool.noConfusion hcov
        exact ih (execute_single_task env (buildMap tasks0) ts j).1 _
          (execute_single_task_shaped env (buildMap tasks0) tasks0 ts j hsh)
          hmem2 hti2

/-- C10: when the ready set is computed, a dependency id that matches no task
of the workflow is ignored: a pending task all of whose dependency ids fall
outside the workflow is ready on the first pass, is executed, and records a
results entry under its task id. -/
theorem external_dependencies_ignored (env : ExecEnv) (wf : WorkflowDefinition)
    (i : Nat) (t : WorkflowTask)
    (hg : wf.tasks.get? i = some t)
    (hp : t.status = TaskStatus.pending)
    (hext : ∀ d ∈ t.dependencies, List.lookup d (buildMap wf.tasks) = none) :
    i ∈ get_ready_tasks (buildMap wf.tasks) wf.tasks ∧
    ∃ e, (t.task_id, e) ∈ (execute_workflow env wf).1.tasks := by
  have hmet : dependencies_met (buildMap wf.tasks) wf.tasks t = true := by
    rw [dependencies_met_iff]
    intro d hd j hj
    rw [hext d hd] at hj
    exact Option.noConfusion hj
  have hready : i ∈ get_ready_tasks (buildMap wf.tasks) wf.tasks :=
    (mem_get_ready_iff _ _ i).mpr ⟨t, hg, hp, hmet⟩
  refine ⟨hready, ?_⟩
  have hpend : has_pending_tasks wf.tasks = true :=
    List.any_eq_true.mpr ⟨t, List.get?_mem hg, by
      show (t.status == TaskStatus.pending) = true
      rw [hp]
      rfl⟩
  have hdone : all_tasks_done wf.tasks = false :=
    all_tasks_done_false_of_pending wf.tasks hpend
  have hew : (execute_workflow env wf).1.tasks =
      (run_loop env (buildMap wf.tasks) (wf.tasks.length + 1) wf.tasks []).2.1 :=
    Eq.refl _
  rw [hew]
  cases hr : get_ready_tasks (buildMap wf.tasks) wf.tasks with
  | nil =>
      rw [hr] at hready
      exact absurd hready (List.not_mem_nil i)
  | cons r0 rest =>
      rw [run_loop_succ_step env (buildMap wf.tasks) wf.tasks.length wf.tasks []
        r0 rest hdone hr]
      obtain ⟨e, he⟩ := batch_entry_of_unmapped_deps env t hext i (r0 :: rest)
        wf.tasks [] (Shaped.rfl wf.tasks) (hr ▸ hready) hg
      exact ⟨e, run_loop_entries_mono env (buildMap wf.tasks) wf.tasks.length _ _
        _ he⟩

/-- A single task whose only dependency id references a ticket outside the
workflow. -/
def extTask0 : WorkflowTask :=
  { task_id := "notify_user"
    agent_name := "NotificationAgent"
    query := "Notify user@example.com"
    dependencies := ["TICKET-1234"] }

def wfExt : WorkflowDefinition :=
  { workflow_id := "ext_dep"
    name := "External dependency"
    description := "Single task depending on an external ticket id"
    tasks := [extTask0]
    created_by := "system" }

/-- C10 witness: the task depending only on an external ticket id is ready at
once and is executed, recording an entry under its id. -/
theorem external_dependencies_ignored_witness :
    0 ∈ get_ready_tasks (buildMap wfExt.tasks) wfExt.tasks ∧
    ∃ e, (extTask0.task_id, e) ∈ (execute_workflow envOk wfExt).1.tasks :=
  external_dependencies_ignored envOk wfExt 0 extTask0 (Eq.refl _) (Eq.refl _)
    (by decide)


end ITServiceDesk
